import Mathlib

/-!
Verification of the HelixLang compiler/runtime core.

This file is a shallow embedding of the parts of the HelixLang repository
needed to settle claims about the IR optimizer (`ir/ir_optimizer.py`,
`ir/ir_nodes.py`), the type system (`core/types.py`), the symbol table
(`core/symbols.py`), the reference-counted memory manager
(`runtime/memory.py`), the tree-walking interpreter (`core/interpreter.py`)
and the runtime environment (`runtime/runtime_env.py`).

Modelling conventions:
 - Python `float` is modelled as `Rat` (exact rationals); no claim below
   depends on IEEE rounding.
 - A raised Python exception is modelled with `Except`; the carried string
   is the exception message.
 - Python objects mutated in place are threaded as explicit state values.
 - Python `dict`s are modelled as association lists whose keys are unique
   along every reachable execution.
-/

namespace HelixLang

/-! Python primitive values.  These are the values that appear in IR
`ConstantNode`s and as interpreter literals: `int`, `float`, `bool`, `str`. -/

/-- A Python primitive value (`int`, `float`, `bool` or `str`). -/
inductive PyVal where
  | vint (n : Int)
  | vfloat (q : Rat)
  | vbool (b : Bool)
  | vstr (s : String)
deriving Repr, DecidableEq

/-- Python `type(value).__name__`, used by the optimizer to fill in the
`const_type` of a folded `ConstantNode`. -/
def pyTypeName : PyVal → String
  | .vint _ => "int"
  | .vfloat _ => "float"
  | .vbool _ => "bool"
  | .vstr _ => "str"

/-- Integer view of a value.  Python `bool` is a subclass of `int`
(`True == 1`, `False == 0`), so both count as integers here. -/
def asIntLike : PyVal → Option Int
  | .vint n => some n
  | .vbool b => some (if b then 1 else 0)
  | _ => none

/-- Numeric view of a value as a rational (`int`, `bool` and `float`). -/
def asNum : PyVal → Option Rat
  | .vint n => some (n : Rat)
  | .vbool b => some (if b then 1 else 0)
  | .vfloat q => some q
  | .vstr _ => none

/-- Python `==` on the modelled values: numbers (including `bool`) compare
by numeric value, strings compare by contents, and a number never equals a
string. -/
def pyEq (a b : PyVal) : Bool :=
  match asNum a, asNum b with
  | some x, some y => x == y
  | _, _ =>
    match a, b with
    | .vstr s, .vstr t => s == t
    | _, _ => false

/-- Python string repetition `s * n` (empty for a non-positive count). -/
def strRepeat (s : String) (n : Int) : String :=
  String.join (List.replicate n.toNat s)

/-- Python `operator.add`.  `int + int` stays `int` (with `bool` counting as
`int`), any `float` operand promotes to `float`, `str + str` concatenates,
and anything else raises `TypeError`. -/
def pyAdd (a b : PyVal) : Except String PyVal :=
  match asIntLike a, asIntLike b with
  | some m, some n => .ok (.vint (m + n))
  | _, _ =>
    match asNum a, asNum b with
    | some x, some y => .ok (.vfloat (x + y))
    | _, _ =>
      match a, b with
      | .vstr s, .vstr t => .ok (.vstr (s ++ t))
      | _, _ => .error "TypeError: unsupported operand types for +"

/-- Python `operator.sub`. -/
def pySub (a b : PyVal) : Except String PyVal :=
  match asIntLike a, asIntLike b with
  | some m, some n => .ok (.vint (m - n))
  | _, _ =>
    match asNum a, asNum b with
    | some x, some y => .ok (.vfloat (x - y))
    | _, _ => .error "TypeError: unsupported operand types for -"

/-- Python `operator.mul`, including string repetition `str * int`. -/
def pyMul (a b : PyVal) : Except String PyVal :=
  match asIntLike a, asIntLike b with
  | some m, some n => .ok (.vint (m * n))
  | _, _ =>
    match asNum a, asNum b with
    | some x, some y => .ok (.vfloat (x * y))
    | _, _ =>
      match a, b with
      | .vstr s, _ =>
        match asIntLike b with
        | some n => .ok (.vstr (strRepeat s n))
        | none => .error "TypeError: unsupported operand types for *"
      | _, .vstr t =>
        match asIntLike a with
        | some m => .ok (.vstr (strRepeat t m))
        | none => .error "TypeError: unsupported operand types for *"
      | _, _ => .error "TypeError: unsupported operand types for *"

/-- Python `operator.truediv`: true division always yields a `float`;
dividing by zero raises `ZeroDivisionError`. -/
def pyTrueDiv (a b : PyVal) : Except String PyVal :=
  match asNum a, asNum b with
  | some x, some y =>
    if y = 0 then .error "ZeroDivisionError: division by zero"
    else .ok (.vfloat (x / y))
  | _, _ => .error "TypeError: unsupported operand types for /"

/-- Python `operator.mod` with floor-rounding semantics (the result has the
sign of the divisor); modulo by zero raises `ZeroDivisionError`. -/
def pyMod (a b : PyVal) : Except String PyVal :=
  match asIntLike a, asIntLike b with
  | some m, some n =>
    if n = 0 then .error "ZeroDivisionError: integer modulo by zero"
    else .ok (.vint (Int.fmod m n))
  | _, _ =>
    match asNum a, asNum b with
    | some x, some y =>
      if y = 0 then .error "ZeroDivisionError: float modulo"
      else .ok (.vfloat (x - y * (Rat.floor (x / y) : Int)))
    | _, _ => .error "TypeError: unsupported operand types for %"

/-- Python ordering comparison: numbers compare numerically, strings
lexicographically, and a number/string mix raises `TypeError`. -/
def pyCompare (a b : PyVal) : Except String Ordering :=
  match asNum a, asNum b with
  | some x, some y => .ok (compare x y)
  | _, _ =>
    match a, b with
    | .vstr s, .vstr t => .ok (compare s t)
    | _, _ => .error "TypeError: unsupported comparison"

/-- Python `operator.and_` (bitwise `&`): boolean conjunction on two
`bool`s, bitwise `and` on integers, `TypeError` otherwise. -/
def pyAnd (a b : PyVal) : Except String PyVal :=
  match a, b with
  | .vbool x, .vbool y => .ok (.vbool (x && y))
  | _, _ =>
    match asIntLike a, asIntLike b with
    | some m, some n => .ok (.vint (Int.land m n))
    | _, _ => .error "TypeError: unsupported operand types for and"

/-- Python `operator.or_` (bitwise bar): boolean disjunction on two `bool`s,
bitwise `or` on integers, `TypeError` otherwise. -/
def pyOr (a b : PyVal) : Except String PyVal :=
  match a, b with
  | .vbool x, .vbool y => .ok (.vbool (x || y))
  | _, _ =>
    match asIntLike a, asIntLike b with
    | some m, some n => .ok (.vint (Int.lor m n))
    | _, _ => .error "TypeError: unsupported operand types for or"

/-! IR nodes (`ir/ir_nodes.py`).

Every IR node carries a uniform `children` list alongside its named fields.
In the Python source the named fields (`left`, `right`, `condition`,
`then_body`, ...) alias the entries of the `children` list only at
construction time; a pass that reassigns `node.children` does not update
the named fields.  The embedding therefore keeps both, exactly as the
source classes do, and the `mk*` constructors below mirror the `__init__`
wiring of `children`. -/

/-- `NodeType` enum of `ir_nodes.py`. -/
inductive NodeType where
  | FUNCTION | VARIABLE | ASSIGNMENT | IF | WHILE | EXPRESSION
  | CALL | RETURN | CONSTANT | BINARY_OP | UNARY_OP | BLOCK
deriving Repr, DecidableEq

/-- IR tree nodes of `ir_nodes.py`.  `binaryOpNode` and `unaryOpNode`
subclass `ExpressionNode` in the source, so their `node_type` is
`EXPRESSION` (see `IRNode.node_type`); the `BINARY_OP`/`UNARY_OP` enum
members are never assigned to a node. -/
inductive IRNode where
  | functionNode (name : String) (params : List String)
      (return_type : Option String) (children : List IRNode)
  | variableNode (name : String) (var_type : Option String)
      (children : List IRNode)
  | assignmentNode (target value : IRNode) (children : List IRNode)
  | ifNode (condition : IRNode) (then_body else_body : List IRNode)
      (children : List IRNode)
  | whileNode (condition : IRNode) (body : List IRNode)
      (children : List IRNode)
  | expressionNode (expression_type : String) (value : Option PyVal)
      (children : List IRNode)
  | callNode (function_name : String) (arguments : List IRNode)
      (children : List IRNode)
  | returnNode (value : Option IRNode) (children : List IRNode)
  | constantNode (value : PyVal) (const_type : Option String)
      (children : List IRNode)
  | binaryOpNode (operator : String) (left right : IRNode)
      (children : List IRNode)
  | unaryOpNode (operator : String) (operand : IRNode)
      (children : List IRNode)
  | blockNode (statements : List IRNode) (children : List IRNode)

namespace IRNode

/-- The `node_type` attribute set by each class's `__init__`. -/
def node_type : IRNode → NodeType
  | .functionNode .. => .FUNCTION
  | .variableNode .. => .VARIABLE
  | .assignmentNode .. => .ASSIGNMENT
  | .ifNode .. => .IF
  | .whileNode .. => .WHILE
  | .expressionNode .. => .EXPRESSION
  | .callNode .. => .CALL
  | .returnNode .. => .RETURN
  | .constantNode .. => .CONSTANT
  | .binaryOpNode .. => .EXPRESSION
  | .unaryOpNode .. => .EXPRESSION
  | .blockNode .. => .BLOCK

/-- The uniform `children` attribute. -/
def children : IRNode → List IRNode
  | .functionNode _ _ _ ch => ch
  | .variableNode _ _ ch => ch
  | .assignmentNode _ _ ch => ch
  | .ifNode _ _ _ ch => ch
  | .whileNode _ _ ch => ch
  | .expressionNode _ _ ch => ch
  | .callNode _ _ ch => ch
  | .returnNode _ ch => ch
  | .constantNode _ _ ch => ch
  | .binaryOpNode _ _ _ ch => ch
  | .unaryOpNode _ _ ch => ch
  | .blockNode _ ch => ch

/-- `FunctionNode.__init__`: `children` is the body. -/
def mkFunction (name : String) (params : List String) (body : List IRNode)
    (return_type : Option String) : IRNode :=
  .functionNode name params return_type body

/-- `VariableNode.__init__`: no children. -/
def mkVariable (name : String) (var_type : Option String) : IRNode :=
  .variableNode name var_type []

/-- `AssignmentNode.__init__`: `children = [target, value]`. -/
def mkAssignment (target value : IRNode) : IRNode :=
  .assignmentNode target value [target, value]

/-- `IfNode.__init__`: `children = [condition] + then_body (+ else_body)`. -/
def mkIf (condition : IRNode) (then_body : List IRNode)
    (else_body : List IRNode := []) : IRNode :=
  .ifNode condition then_body else_body ([condition] ++ then_body ++ else_body)

/-- `WhileNode.__init__`: `children = [condition] + body`. -/
def mkWhile (condition : IRNode) (body : List IRNode) : IRNode :=
  .whileNode condition body ([condition] ++ body)

/-- `CallNode.__init__`: `children` is the argument list. -/
def mkCall (function_name : String) (arguments : List IRNode) : IRNode :=
  .callNode function_name arguments arguments

/-- `ReturnNode.__init__`: `children = [value]` when a value is present. -/
def mkReturn (value : Option IRNode := none) : IRNode :=
  .returnNode value (match value with | some v => [v] | none => [])

/-- `ConstantNode.__init__`: no children. -/
def mkConstant (value : PyVal) (const_type : Option String := none) : IRNode :=
  .constantNode value const_type []

/-- `BinaryOpNode.__init__`: `children = [left, right]`. -/
def mkBinaryOp (operator : String) (left right : IRNode) : IRNode :=
  .binaryOpNode operator left right [left, right]

/-- `UnaryOpNode.__init__`: `children = [operand]`. -/
def mkUnaryOp (operator : String) (operand : IRNode) : IRNode :=
  .unaryOpNode operator operand [operand]

/-- `BlockNode.__init__`: `children` is the statement list. -/
def mkBlock (statements : List IRNode) : IRNode :=
  .blockNode statements statements

end IRNode

/-! IR optimizer (`ir/ir_optimizer.py`).

`IROptimizer.constant_folding_pass` recurses through `node.children`
(including twice over the already-folded children of `ASSIGNMENT`,
`FUNCTION` and `BLOCK` nodes, exactly as the source does), so the recursion
is not structural on the tree.  It is embedded with an explicit fuel
parameter that decreases on structural descent; `constant_folding_pass`
instantiates the fuel with `msize` (a count of IR constructors, ignoring
payloads), which dominates the source recursion depth because every
recursive call of the source is on a node of strictly smaller `msize` and
folding never increases `msize` (`msize_cfpFuel_le` below). -/

/-- Number of IR constructors in a node (payloads ignored); `msizeList`
counts one extra per list entry so that members are strictly smaller. -/
def msize : IRNode → Nat
  | .functionNode _ _ _ ch => 1 + msizeList ch
  | .variableNode _ _ ch => 1 + msizeList ch
  | .assignmentNode t v ch => 1 + msize t + msize v + msizeList ch
  | .ifNode c tb eb ch => 1 + msize c + msizeList tb + msizeList eb + msizeList ch
  | .whileNode c b ch => 1 + msize c + msizeList b + msizeList ch
  | .expressionNode _ _ ch => 1 + msizeList ch
  | .callNode _ args ch => 1 + msizeList args + msizeList ch
  | .returnNode v ch =>
      1 + (match v with | some x => msize x | none => 0) + msizeList ch
  | .constantNode _ _ ch => 1 + msizeList ch
  | .binaryOpNode _ l r ch => 1 + msize l + msize r + msizeList ch
  | .unaryOpNode _ o ch => 1 + msize o + msizeList ch
  | .blockNode stmts ch => 1 + msizeList stmts + msizeList ch
where
  /-- Size of a list of IR nodes: one per cons cell plus the node sizes. -/
  msizeList : List IRNode → Nat
  | [] => 0
  | x :: xs => 1 + msize x + msizeList xs

/-- `IROptimizer._evaluate_binary_op`: the fixed operator table, mapping an
operator string to the corresponding `operator` module function; an unknown
operator raises `ValueError`. -/
def evaluate_binary_op (operator_str : String) (left_val right_val : PyVal) :
    Except String PyVal :=
  match operator_str with
  | "+" => pyAdd left_val right_val
  | "-" => pySub left_val right_val
  | "*" => pyMul left_val right_val
  | "/" => pyTrueDiv left_val right_val
  | "%" => pyMod left_val right_val
  | "==" => .ok (.vbool (pyEq left_val right_val))
  | "!=" => .ok (.vbool (!pyEq left_val right_val))
  | "<" => (pyCompare left_val right_val).map (fun o => .vbool (o == .lt))
  | "<=" => (pyCompare left_val right_val).map (fun o => .vbool (o != .gt))
  | ">" => (pyCompare left_val right_val).map (fun o => .vbool (o == .gt))
  | ">=" => (pyCompare left_val right_val).map (fun o => .vbool (o != .lt))
  | "and" => pyAnd left_val right_val
  | "or" => pyOr left_val right_val
  | _ => .error ("Unsupported operator for folding: " ++ operator_str)

/-- `IROptimizer._fold_binary_op`: only a `BinaryOpNode` has the
`left`/`right`/`operator` attributes (the defensive `hasattr` check skips
every other node).  When both `left` and `right` are `ConstantNode`s the
operator is evaluated; an evaluation exception leaves the node unfolded.
Note that `left` and `right` are the node's named attributes, not entries
of its (possibly rewritten) `children` list. -/
def fold_binary_op : IRNode → IRNode
  | .binaryOpNode op (.constantNode lv lt lch) (.constantNode rv rt rch) ch =>
    match evaluate_binary_op op lv rv with
    | .ok value => IRNode.mkConstant value (some (pyTypeName value))
    | .error _ =>
      .binaryOpNode op (.constantNode lv lt lch) (.constantNode rv rt rch) ch
  | node => node

/-- Fuelled form of `IROptimizer.constant_folding_pass`.  Each case first
replaces `children` with the recursively folded children (the post-order
loop of the source), then dispatches on `node_type`:
`EXPRESSION` nodes go through `_fold_binary_op`; an `ASSIGNMENT` folds its
(already folded) second child once more; `FUNCTION` and `BLOCK` fold all
(already folded) children once more; everything else is returned with the
updated children.  The named attribute fields are left untouched, exactly
as in the source. -/
def cfpFuel : Nat → IRNode → IRNode
  | 0, node => node
  | fuel + 1, node =>
    match node with
    | .binaryOpNode op left right ch =>
        fold_binary_op (.binaryOpNode op left right (ch.map (cfpFuel fuel)))
    | .unaryOpNode op operand ch =>
        fold_binary_op (.unaryOpNode op operand (ch.map (cfpFuel fuel)))
    | .expressionNode et v ch =>
        fold_binary_op (.expressionNode et v (ch.map (cfpFuel fuel)))
    | .assignmentNode target value ch =>
        match ch.map (cfpFuel fuel) with
        | [c0, c1] => .assignmentNode target value [c0, cfpFuel fuel c1]
        | ch' => .assignmentNode target value ch'
    | .functionNode name params rt ch =>
        .functionNode name params rt ((ch.map (cfpFuel fuel)).map (cfpFuel fuel))
    | .blockNode stmts ch =>
        .blockNode stmts ((ch.map (cfpFuel fuel)).map (cfpFuel fuel))
    | .ifNode c tb eb ch => .ifNode c tb eb (ch.map (cfpFuel fuel))
    | .whileNode c b ch => .whileNode c b (ch.map (cfpFuel fuel))
    | .variableNode n t ch => .variableNode n t (ch.map (cfpFuel fuel))
    | .callNode f args ch => .callNode f args (ch.map (cfpFuel fuel))
    | .returnNode v ch => .returnNode v (ch.map (cfpFuel fuel))
    | .constantNode v t ch => .constantNode v t (ch.map (cfpFuel fuel))

/-- `IROptimizer.constant_folding_pass`, with the fuel instantiated at the
node's constructor count. -/
def constant_folding_pass (node : IRNode) : IRNode :=
  cfpFuel (msize node) node

/-- Fuelled form of `IROptimizer.dead_code_elimination_pass`: only
`FUNCTION` and `BLOCK` nodes are rewritten (their `children` are filtered
by `_eliminate_dead_code_block`); every other node, including `IF` and
`WHILE`, is returned unchanged. -/
def dceFuel : Nat → IRNode → IRNode
  | 0, node => node
  | fuel + 1, node =>
    match node with
    | .functionNode name params rt ch =>
        .functionNode name params rt (elimFuel fuel ch)
    | .blockNode stmts ch => .blockNode stmts (elimFuel fuel ch)
    | other => other
where
  /-- `IROptimizer._eliminate_dead_code_block`: keep statements (each
  recursively optimized) up to and including the first `RETURN`; drop
  everything after it. -/
  elimFuel : Nat → List IRNode → List IRNode
  | _, [] => []
  | 0, stmts => stmts
  | fuel + 1, stmt :: rest =>
    let optimized := dceFuel fuel stmt
    if stmt.node_type == .RETURN then [optimized]
    else optimized :: elimFuel fuel rest

/-- `IROptimizer.dead_code_elimination_pass`. -/
def dead_code_elimination_pass (node : IRNode) : IRNode :=
  dceFuel (msize node) node

/-- `IROptimizer.optimize`: apply the pass list in order (constant folding,
then dead-code elimination). -/
def optimize (node : IRNode) : IRNode :=
  dead_code_elimination_pass (constant_folding_pass node)

/-! Type system (`core/types.py`).

Each Python class (`IntType`, `FloatType`, ..., `StructType`,
`FunctionType`) becomes a constructor of `Ty`.  Python dispatches `__eq__`,
`is_subtype_of` and `unify` on the class of the *left* operand, so each
embedded function matches on its first argument; classes that do not
override a method fall through to the `Type` base-class behaviour.
`StructType.fields` is a `dict`, modelled as an association list with
unique keys; `dictGet` is `dict.get`. -/

/-- `dict.get` on an association list (Python dict keys are unique). -/
def dictGet {κ α : Type} [BEq κ] : List (κ × α) → κ → Option α
  | [], _ => none
  | (k, v) :: rest, key => if k == key then some v else dictGet rest key

/-- The HelixLang types of `core/types.py`. -/
inductive Ty where
  | int | float | bool | string
  | genome | protein | cell
  | array (element_type : Ty)
  | tuple (element_types : List Ty)
  | struct (name : String) (fields : List (String × Ty))
  | function (param_types : List Ty) (return_type : Ty)
deriving Repr

/-- Auxiliary size bound: a value found by `dictGet` is smaller than the
dictionary it came from. -/
theorem dictGet_sizeOf_lt {κ α : Type} [BEq κ] [SizeOf κ] [SizeOf α] :
    ∀ (l : List (κ × α)) (k : κ) (v : α),
      dictGet l k = some v → sizeOf v < sizeOf l := by
  intro l k v h
  induction l with
  | nil => simp [dictGet] at h
  | cons p rest ih =>
    obtain ⟨pk, pv⟩ := p
    by_cases hk : (pk == k) = true
    · simp [dictGet, hk] at h
      subst h
      simp
      omega
    · simp [dictGet, hk] at h
      have := ih h
      simp
      omega

mutual

/-- Python `==` between types, dispatching `__eq__` on the left operand's
class.  Note the asymmetry taken from the source: `FloatType.__eq__`
accepts an `IntType` argument (`Float == Int` is `True`), while
`IntType.__eq__` only accepts `IntType` (`Int == Float` is `False`).
`StructType.__eq__` is Python dict equality of the field maps: equal key
sets and `==` on each shared key's value. -/
def pyTyEq : Ty → Ty → Bool
  | .int, .int => true
  | .int, _ => false
  | .float, .float => true
  | .float, .int => true
  | .float, _ => false
  | .bool, .bool => true
  | .bool, _ => false
  | .string, .string => true
  | .string, _ => false
  | .genome, .genome => true
  | .genome, _ => false
  | .protein, .protein => true
  | .protein, _ => false
  | .cell, .cell => true
  | .cell, _ => false
  | .array e, other =>
    match other with
    | .array e2 => pyTyEq e e2
    | _ => false
  | .tuple ts, other =>
    match other with
    | .tuple us => pyTyEqList ts us && ts.length == us.length
    | _ => false
  | .struct n f, other =>
    match other with
    | .struct m g =>
      n == m
        && (g.all fun kv => f.any fun kv2 => kv2.1 == kv.1)
        && pyTyEqFields f g
    | _ => false
  | .function ps r, other =>
    match other with
    | .function qs s => ps.length == qs.length && pyTyEqList ps qs && pyTyEq r s
    | _ => false
termination_by a b => sizeOf a + sizeOf b
decreasing_by all_goals (simp_wf; omega)

/-- Pairwise `==` over `zip`ped element lists (extra elements ignored, as
Python `zip` does). -/
def pyTyEqList : List Ty → List Ty → Bool
  | t :: ts, u :: us => pyTyEq t u && pyTyEqList ts us
  | _, _ => true
termination_by a b => sizeOf a + sizeOf b
decreasing_by all_goals (simp_wf; omega)

/-- `==` of each left-hand struct field against the right-hand field dict
(the value part of Python dict equality). -/
def pyTyEqFields : List (String × Ty) → List (String × Ty) → Bool
  | [], _ => true
  | (k, t) :: rest, g =>
    (match hu : dictGet g k with
     | some u => pyTyEq t u
     | none => false)
      && pyTyEqFields rest g
termination_by a b => sizeOf a + sizeOf b
decreasing_by
  all_goals simp_wf
  all_goals (have h2 : sizeOf u < sizeOf g := dictGet_sizeOf_lt g k u hu; omega)

end


mutual

/-- `is_subtype_of`, dispatched on the left operand's class.  The
base-class default (`IntType`, `BoolType`, `StringType` and the domain
types) is Python `self == other`; `FloatType` overrides it to
`isinstance(other, FloatType)`; the composite types implement covariant
arrays, elementwise tuples, width-subtyped structs (same `name` required,
every field declared by `other` present in `self` with a subtype), and
parameter-contravariant / return-covariant functions. -/
def is_subtype_of : Ty → Ty → Bool
  | .float, .float => true
  | .float, _ => false
  | .array e, other =>
    match other with
    | .array e2 => is_subtype_of e e2
    | _ => false
  | .tuple ts, other =>
    match other with
    | .tuple us => ts.length == us.length && subtypeList ts us
    | _ => false
  | .struct n f, other =>
    match other with
    | .struct m g => n == m && subtypeFields g f
    | _ => false
  | .function ps r, other =>
    match other with
    | .function qs s =>
      ps.length == qs.length && subtypeList qs ps && is_subtype_of r s
    | _ => false
  | self, other => pyTyEq self other
termination_by a b => sizeOf a + sizeOf b
decreasing_by all_goals (simp_wf; omega)

/-- Pairwise `is_subtype_of` over `zip`ped lists. -/
def subtypeList : List Ty → List Ty → Bool
  | t :: ts, u :: us => is_subtype_of t u && subtypeList ts us
  | _, _ => true
termination_by a b => sizeOf a + sizeOf b
decreasing_by all_goals (simp_wf; omega)

/-- The `StructType.is_subtype_of` loop: every field `(k, typ)` that
`other` declares must be present in `mine` with a subtype-compatible
type. -/
def subtypeFields : List (String × Ty) → List (String × Ty) → Bool
  | [], _ => true
  | (k, typ) :: rest, g =>
    (match hm : dictGet g k with
     | some mine => is_subtype_of mine typ
     | none => false)
      && subtypeFields rest g
termination_by a b => sizeOf a + sizeOf b
decreasing_by
  all_goals simp_wf
  all_goals (have h2 : sizeOf mine < sizeOf g := dictGet_sizeOf_lt g k mine hm; omega)

end

mutual

/-- `unify`, dispatched on the left operand's class.  The base-class
default (`Type.unify`, used by `IntType`, `BoolType`, `StringType` and the
domain types) returns `self` when `self == other` and `None` otherwise;
`FloatType.unify` promotes `Int` or `Float` to `Float`; `ArrayType`,
`TupleType`, `StructType` and `FunctionType` unify componentwise,
propagating failure.  `StructType.unify` iterates over the union of the
two key sets and fails if either struct is missing a key (so the key sets
must be equal). -/
def unify : Ty → Ty → Option Ty
  | .float, other =>
    match other with
    | .int | .float => some .float
    | _ => none
  | .array e, other =>
    match other with
    | .array e2 => (unify e e2).map .array
    | _ => none
  | .tuple ts, other =>
    match other with
    | .tuple us =>
      if ts.length = us.length then (unifyList ts us).map .tuple else none
    | _ => none
  | .struct n f, other =>
    match other with
    | .struct m g =>
      if n = m && (g.all fun kv => f.any fun kv2 => kv2.1 == kv.1) then
        (unifyFields f g).map (.struct n)
      else none
    | _ => none
  | .function ps r, other =>
    match other with
    | .function qs s =>
      if ps.length = qs.length then
        match unifyList ps qs, unify r s with
        | some ups, some ur => some (.function ups ur)
        | _, _ => none
      else none
    | _ => none
  | self, other => if pyTyEq self other then some self else none
termination_by a b => sizeOf a + sizeOf b
decreasing_by all_goals (simp_wf; omega)

/-- Pointwise unification of two element lists. -/
def unifyList : List Ty → List Ty → Option (List Ty)
  | [], _ => some []
  | _ :: _, [] => none
  | t :: ts, u :: us =>
    match unify t u, unifyList ts us with
    | some w, some ws => some (w :: ws)
    | _, _ => none
termination_by a b => sizeOf a + sizeOf b
decreasing_by all_goals (simp_wf; omega)

/-- Pointwise unification of the left struct's fields against the right
struct's field dict; fails on a missing key or a failing field. -/
def unifyFields : List (String × Ty) → List (String × Ty) →
    Option (List (String × Ty))
  | [], _ => some []
  | (k, t) :: rest, g =>
    match hu : dictGet g k with
    | none => none
    | some u =>
      match unify t u, unifyFields rest g with
      | some w, some ws => some ((k, w) :: ws)
      | _, _ => none
termination_by a b => sizeOf a + sizeOf b
decreasing_by
  all_goals simp_wf
  all_goals (have h2 : sizeOf u < sizeOf g := dictGet_sizeOf_lt g k u hu; omega)

end

/-! Symbol table (`core/symbols.py`). -/

/-- A symbol table entry (`Symbol`). -/
structure Symbol where
  name : String
  type : Ty
  scope_level : Int
  is_mutable : Bool := false
  is_global : Bool := false
  is_function : Bool := false
  metadata : List (String × String) := []
deriving Repr

/-- One scope frame (`Scope`): a level and a name-to-symbol dict. -/
structure Scope where
  level : Int
  symbols : List (String × Symbol)
deriving Repr

/-- `Scope.insert`: raises `KeyError` when the name is already declared in
this scope, otherwise adds the binding. -/
def Scope.insert (s : Scope) (symbol : Symbol) : Except String Scope :=
  if (dictGet s.symbols symbol.name).isSome then
    .error ("Symbol '" ++ symbol.name ++ "' already declared in current scope (level "
      ++ toString s.level ++ ").")
  else
    .ok { s with symbols := s.symbols ++ [(symbol.name, symbol)] }

/-- `Scope.lookup`: this scope only. -/
def Scope.lookup (s : Scope) (name : String) : Option Symbol :=
  dictGet s.symbols name

/-- `SymbolTable`: a stack of scopes plus the `current_level` counter.
Along every reachable state `current_level = scopes.length - 1`, so
`self.scopes[self.current_level]` in the source is the last scope. -/
structure SymbolTable where
  scopes : List Scope
  current_level : Int
deriving Repr

/-- `SymbolTable.enter_scope`: push a new scope. -/
def SymbolTable.enter_scope (st : SymbolTable) : SymbolTable :=
  { scopes := st.scopes ++ [{ level := st.current_level + 1, symbols := [] }],
    current_level := st.current_level + 1 }

/-- `SymbolTable.__init__`: start with a single (global) scope. -/
def SymbolTable.new : SymbolTable :=
  SymbolTable.enter_scope { scopes := [], current_level := -1 }

/-- `SymbolTable.exit_scope`: pop the current scope; raises when there is
no scope left. -/
def SymbolTable.exit_scope (st : SymbolTable) : Except String SymbolTable :=
  if st.current_level < 0 then .error "No scope to exit."
  else
    .ok { scopes := st.scopes.dropLast, current_level := st.current_level - 1 }

/-- `SymbolTable.insert`: build a `Symbol` at the current level and insert
it into the current (innermost) scope; propagates the duplicate-name
`KeyError` from `Scope.insert`. -/
def SymbolTable.insert (st : SymbolTable) (name : String) (typ : Ty)
    (is_mutable : Bool := false) (is_global : Bool := false)
    (is_function : Bool := false) (metadata : List (String × String) := []) :
    Except String (Symbol × SymbolTable) :=
  let symbol : Symbol :=
    { name := name, type := typ, scope_level := st.current_level,
      is_mutable := is_mutable, is_global := is_global,
      is_function := is_function, metadata := metadata }
  match st.scopes.getLast? with
  | none => .error "IndexError: no scope available"
  | some cur =>
    match cur.insert symbol with
    | .error e => .error e
    | .ok cur' => .ok (symbol, { st with scopes := st.scopes.dropLast ++ [cur'] })

/-- The scope-walking loop of `SymbolTable.lookup` over an
innermost-first list. -/
def scopesLookup : List Scope → String → Option Symbol
  | [], _ => none
  | s :: rest, name =>
    match s.lookup name with
    | some symbol => some symbol
    | none => scopesLookup rest name

/-- `SymbolTable.lookup`: walk the scopes from innermost to outermost and
return the first match, or `None`. -/
def SymbolTable.lookup (st : SymbolTable) (name : String) : Option Symbol :=
  scopesLookup st.scopes.reverse name

/-! Memory manager (`runtime/memory.py`), with the runtime values of
`runtime/value_types.py`.

The value variants embedded here are the ones with non-recursive payloads
(`IntValue`, `FloatValue`, `StringValue`, `Genome`); the memory manager
treats every value uniformly through `size_in_bytes`, so the omitted
variants do not affect any claim. -/

/-- Runtime values (`runtime/value_types.py`). -/
inductive RuntimeValue where
  | IntValue (value : Int)
  | FloatValue (value : Rat)
  | StringValue (value : String)
  | Genome (sequence : String)
deriving Repr, DecidableEq

/-- `size_in_bytes` of each value class: 4 for ints, 8 for floats, the
UTF-8 byte length for strings, the sequence length for genomes. -/
def RuntimeValue.size_in_bytes : RuntimeValue → Int
  | .IntValue _ => 4
  | .FloatValue _ => 8
  | .StringValue s => s.utf8ByteSize
  | .Genome s => s.length

/-- A heap cell (`MemoryObject`): a value and its reference count (which
starts at 1 on allocation). -/
structure MemoryObject where
  value : RuntimeValue
  ref_count : Int
deriving Repr, DecidableEq

/-- `MemoryObject.inc_ref`. -/
def MemoryObject.inc_ref (o : MemoryObject) : MemoryObject :=
  { o with ref_count := o.ref_count + 1 }

/-- `MemoryObject.dec_ref`: decrement, raising `MemoryError` if the count
drops below zero. -/
def MemoryObject.dec_ref (o : MemoryObject) : Except String MemoryObject :=
  let o' : MemoryObject := { o with ref_count := o.ref_count - 1 }
  if o'.ref_count < 0 then .error "Reference count dropped below zero"
  else .ok o'

/-- `MemoryObject.is_unreferenced`. -/
def MemoryObject.is_unreferenced (o : MemoryObject) : Bool :=
  o.ref_count == 0

/-- `dict` update of an existing key (leaves the list unchanged when the
key is absent; the manager only calls it on present keys). -/
def dictSet {κ α : Type} [BEq κ] : List (κ × α) → κ → α → List (κ × α)
  | [], _, _ => []
  | (k, v) :: rest, key, nv =>
    if k == key then (k, nv) :: rest else (k, v) :: dictSet rest key nv

/-- `dict` deletion of a key (`del d[k]`). -/
def dictRemove {κ α : Type} [BEq κ] : List (κ × α) → κ → List (κ × α)
  | [], _ => []
  | (k, v) :: rest, key =>
    if k == key then rest else (k, v) :: dictRemove rest key

/-- `dict` insert-or-update (`d[k] = v`). -/
def dictUpsert {κ α : Type} [BEq κ] (l : List (κ × α)) (key : κ) (nv : α) :
    List (κ × α) :=
  if (dictGet l key).isSome then dictSet l key nv else l ++ [(key, nv)]

/-- `MemoryManager` state: the simulated heap (address dict), the address
counter, the stack of local frames, the `current_frame_vars` alias of the
top frame, and the heap-size accounting. -/
structure MemoryManager where
  heap : List (Nat × MemoryObject)
  next_addr : Nat
  stack_frames : List (List (String × Nat))
  current_frame_vars : List (String × Nat)
  heap_size : Int
  used_heap_size : Int
deriving Repr

/-- `MemoryManager.__init__`. -/
def MemoryManager.new (heap_size : Int := 1024 * 1024) : MemoryManager :=
  { heap := [], next_addr := 1, stack_frames := [], current_frame_vars := [],
    heap_size := heap_size, used_heap_size := 0 }

/-- `MemoryManager.allocate`: refuse when the heap budget is exceeded,
otherwise store the value at a fresh address with reference count 1. -/
def MemoryManager.allocate (m : MemoryManager) (value : RuntimeValue) :
    Except String (Nat × MemoryManager) :=
  let size := value.size_in_bytes
  if m.used_heap_size + size > m.heap_size then .error "Out of heap memory"
  else
    let addr := m.next_addr
    .ok (addr,
      { m with
        heap := m.heap ++ [(addr, { value := value, ref_count := 1 })],
        next_addr := addr + 1,
        used_heap_size := m.used_heap_size + size })

/-- `MemoryManager.deallocate`: free the object at `addr`; raises on an
unknown address and on an object that is still referenced. -/
def MemoryManager.deallocate (m : MemoryManager) (addr : Nat) :
    Except String MemoryManager :=
  match dictGet m.heap addr with
  | none => .error ("Invalid free at address " ++ toString addr)
  | some obj =>
    if !obj.is_unreferenced then
      .error ("Attempt to free still-referenced object at " ++ toString addr)
    else
      .ok { m with
            used_heap_size := m.used_heap_size - obj.value.size_in_bytes,
            heap := dictRemove m.heap addr }

/-- `MemoryManager.inc_ref`; raises on an unknown address. -/
def MemoryManager.inc_ref (m : MemoryManager) (addr : Nat) :
    Except String MemoryManager :=
  match dictGet m.heap addr with
  | none => .error ("Invalid inc_ref on address " ++ toString addr)
  | some obj => .ok { m with heap := dictSet m.heap addr obj.inc_ref }

/-- `MemoryManager.dec_ref`: decrement and deallocate when the count
reaches zero; raises on an unknown address. -/
def MemoryManager.dec_ref (m : MemoryManager) (addr : Nat) :
    Except String MemoryManager :=
  match dictGet m.heap addr with
  | none => .error ("Invalid dec_ref on address " ++ toString addr)
  | some obj =>
    match obj.dec_ref with
    | .error e => .error e
    | .ok obj' =>
      let m' := { m with heap := dictSet m.heap addr obj' }
      if obj'.is_unreferenced then m'.deallocate addr else .ok m'

/-- `MemoryManager.read`; raises on an unknown address. -/
def MemoryManager.read (m : MemoryManager) (addr : Nat) :
    Except String RuntimeValue :=
  match dictGet m.heap addr with
  | none => .error ("Invalid memory read at address " ++ toString addr)
  | some obj => .ok obj.value

/-- `MemoryManager.write`: replace the stored value (reference count is
unchanged), adjusting the used-size accounting; raises on an unknown
address. -/
def MemoryManager.write (m : MemoryManager) (addr : Nat)
    (value : RuntimeValue) : Except String MemoryManager :=
  match dictGet m.heap addr with
  | none => .error ("Invalid memory write at address " ++ toString addr)
  | some old_obj =>
    .ok { m with
          used_heap_size := m.used_heap_size
            + (value.size_in_bytes - old_obj.value.size_in_bytes),
          heap := dictSet m.heap addr { old_obj with value := value } }

/-- `MemoryManager.push_stack_frame`. -/
def MemoryManager.push_stack_frame (m : MemoryManager) : MemoryManager :=
  { m with stack_frames := m.stack_frames ++ [[]], current_frame_vars := [] }

/-- The release loop of `pop_stack_frame`: `dec_ref` every address bound
in the frame, in insertion order. -/
def decRefFrame : MemoryManager → List (String × Nat) →
    Except String MemoryManager
  | m, [] => .ok m
  | m, (_, addr) :: rest =>
    match m.dec_ref addr with
    | .error e => .error e
    | .ok m' => decRefFrame m' rest

/-- `MemoryManager.pop_stack_frame`: pop the top frame, release every
local bound in it, and repoint `current_frame_vars`; raises on an empty
stack. -/
def MemoryManager.pop_stack_frame (m : MemoryManager) :
    Except String MemoryManager :=
  match m.stack_frames.getLast? with
  | none => .error "Pop stack frame called on empty stack"
  | some frame =>
    let m' := { m with stack_frames := m.stack_frames.dropLast }
    match decRefFrame m' frame with
    | .error e => .error e
    | .ok m'' =>
      .ok { m'' with
            current_frame_vars := m''.stack_frames.getLast?.getD [] }

/-- `MemoryManager.declare_local_variable`: allocate and bind in the
current frame (which aliases the top stack frame when one exists). -/
def MemoryManager.declare_local_variable (m : MemoryManager) (name : String)
    (value : RuntimeValue) : Except String MemoryManager :=
  match m.allocate value with
  | .error e => .error e
  | .ok (addr, m') =>
    let cur' := dictUpsert m'.current_frame_vars name addr
    .ok { m' with
          current_frame_vars := cur',
          stack_frames :=
            if m'.stack_frames.isEmpty then m'.stack_frames
            else m'.stack_frames.dropLast ++ [cur'] }

/-- `MemoryManager.check_address_valid`. -/
def MemoryManager.check_address_valid (m : MemoryManager) (addr : Nat) :
    Bool :=
  (dictGet m.heap addr).isSome

/-- The heap invariants of the data model: every live object has a
strictly positive reference count, addresses are unique, and every live
address is below the allocation counter. -/
def HeapInv (m : MemoryManager) : Prop :=
  (∀ p ∈ m.heap, 1 ≤ p.2.ref_count)
    ∧ (m.heap.map Prod.fst).Nodup
    ∧ (∀ p ∈ m.heap, p.1 < m.next_addr)

instance (m : MemoryManager) : Decidable (HeapInv m) := by
  unfold HeapInv
  infer_instance

/-! Tree-walking interpreter (`core/interpreter.py`).

The AST node classes of `core/ast_nodes.py` needed by the interpreter are
embedded below (struct definitions and imports are omitted; no claim
touches them).  The `Environment` chain is modelled as a list of frames,
innermost first; `Environment(parent=e)` is `[] :: e` and `env.parent` is
`List.tail`.  A frame maps a name to an `Option Value` because a Python
environment can bind a name to `None` (`Environment.get` returns `None`
both for an unbound name and for a name bound to `None`).  Python
recursion is bounded by an explicit fuel; exhaustion is reported as the
distinguished `recursionLimit` outcome (CPython's `RecursionError`)
and never arises in the theorems below. -/

/-- AST nodes of `core/ast_nodes.py` (the subset the interpreter visits;
`line`/`column` are the diagnostic positions every node carries). -/
inductive AST where
  | literalNode (value : PyVal) (line column : Nat)
  | variableNode (name : String) (line column : Nat)
  | binaryOpNode (left : AST) (operator : String) (right : AST)
      (line column : Nat)
  | unaryOpNode (operator : String) (operand : AST) (line column : Nat)
  | callNode (callee : AST) (arguments : List AST) (line column : Nat)
  | ifNode (condition : AST) (then_branch : AST) (else_branch : Option AST)
      (line column : Nat)
  | whileNode (condition : AST) (body : AST) (line column : Nat)
  | forNode (initializer : AST) (condition : AST) (increment : AST)
      (body : AST) (line column : Nat)
  | returnNode (value : Option AST) (line column : Nat)
  | blockNode (statements : List AST) (line column : Nat)
  | functionDefNode (name : String) (params : List String) (body : AST)
      (line column : Nat)
  | variableDeclNode (name : String) (initializer : Option AST)
      (line column : Nat)
  | assignmentNode (target : AST) (value : AST) (line column : Nat)

/-- Interpreter runtime values: a Python primitive, or a `Function` object
(declaration plus the environment captured at definition time). -/
inductive Value where
  | prim (p : PyVal)
  | funcVal (name : String) (params : List String) (body : AST)
      (line column : Nat) (closure : List (List (String × Option Value)))

/-- One `Environment`'s own `values` dict. -/
abbrev Frame := List (String × Option Value)

/-- A parent-linked chain of `Environment`s, innermost first; the last
frame is the interpreter's `global_env`. -/
abbrev EnvChain := List Frame

/-- `Environment.get`: probe this environment's dict, then the parent
chain.  A hit returns the stored value — which is itself an
`Option Value`, so an unbound name and a name bound to `None` are
indistinguishable in the result, exactly as in the source. -/
def envGet : EnvChain → String → Option Value
  | [], _ => none
  | f :: rest, name =>
    match dictGet f name with
    | some stored => stored
    | none => envGet rest name

/-- `Environment.define`: bind in the innermost environment. -/
def envDefine (env : EnvChain) (name : String) (value : Option Value) :
    EnvChain :=
  match env with
  | [] => []
  | f :: rest => dictUpsert f name value :: rest

/-- `Environment.assign`: update the innermost environment that already
binds the name; report `False` when none does. -/
def envAssign : EnvChain → String → Option Value → Bool × EnvChain
  | [], _, _ => (false, [])
  | f :: rest, name, value =>
    if (dictGet f name).isSome then (true, dictSet f name value :: rest)
    else
      let (found, rest') := envAssign rest name value
      (found, f :: rest')

/-- Exceptions of `core/interpreter.py`: `RuntimeError` (message plus
source position), the `ReturnException` control-flow signal, an uncaught
Python-level exception (e.g. `TypeError` on `None + 1`), and the fuel
marker standing for CPython's `RecursionError`. -/
inductive InterpExc where
  | runtimeError (message : String) (line column : Option Nat)
  | returnExc (value : Option Value)
  | pythonError (message : String)
  | recursionLimit

/-- `TypeChecker.check_numeric`'s `isinstance(x, (int, float))` test:
true for `int`, `float` and `bool` (a subclass of `int`); false for
strings, `None` and function objects. -/
def isNumericValue : Option Value → Bool
  | some (.prim (.vint _)) => true
  | some (.prim (.vfloat _)) => true
  | some (.prim (.vbool _)) => true
  | _ => false

/-- `TypeChecker.check_numeric`: the left operand must be numeric and the
right operand must be numeric or absent (`None`). -/
def check_numeric (left right : Option Value) : Bool :=
  isNumericValue left && (right.isNone || isNumericValue right)

/-- Python truthiness (`bool(x)`) of an interpreter value. -/
def truthy : Option Value → Bool
  | none => false
  | some (.prim (.vint n)) => n != 0
  | some (.prim (.vfloat q)) => q != 0
  | some (.prim (.vbool b)) => b
  | some (.prim (.vstr s)) => s != ""
  | some (.funcVal ..) => true

/-- Python `==` between interpreter values.  Two distinct `Function`
objects compare by identity in the source; the interpreter builds a fresh
object per definition, so they are modelled as unequal (no claim compares
function values). -/
def valueEq : Option Value → Option Value → Bool
  | some (.prim a), some (.prim b) => pyEq a b
  | none, none => true
  | _, _ => false

/-- `str(x)` of an interpreter value, used only inside error messages
(the rendering of a `float` is approximate). -/
def valueRepr : Option Value → String
  | none => "None"
  | some (.prim (.vint n)) => toString n
  | some (.prim (.vfloat q)) => toString q
  | some (.prim (.vbool true)) => "True"
  | some (.prim (.vbool false)) => "False"
  | some (.prim (.vstr s)) => s
  | some (.funcVal name _ _ _ _ _) => "<Function " ++ name ++ ">"

/-- Apply a Python binary operation on two primitive operands; a `None` or
function operand, or a raised Python exception, surfaces as an uncaught
Python-level error (the source has no handler around these). -/
def applyNative (f : PyVal → PyVal → Except String PyVal)
    (l r : Option Value) : Except InterpExc (Option Value) :=
  match l, r with
  | some (.prim a), some (.prim b) =>
    match f a b with
    | .ok v => .ok (some (.prim v))
    | .error m => .error (.pythonError m)
  | _, _ => .error (.pythonError "TypeError: unsupported operand type")

/-- Python ordering comparison on interpreter values (see
`applyNative`). -/
def applyComparison (keep : Ordering → Bool) (l r : Option Value) :
    Except InterpExc (Option Value) :=
  match l, r with
  | some (.prim a), some (.prim b) =>
    match pyCompare a b with
    | .ok o => .ok (some (.prim (.vbool (keep o))))
    | .error m => .error (.pythonError m)
  | _, _ => .error (.pythonError "TypeError: unsupported comparison")

/-- Python `right == 0` used by the division guard (`0` equals `0.0` and
`False`). -/
def isPyZero : Option Value → Bool
  | some (.prim p) =>
    match asNum p with
    | some q => q == 0
    | none => false
  | _ => false

/-- The operator dispatch of `Interpreter.visit_binary_op`, applied to the
already-evaluated operand values.  Arithmetic and ordering operators first
run `check_numeric` (a failure is a `RuntimeError` at the node's
position); `/` raises `RuntimeError "Division by zero"` when the right
operand equals zero; `==`/`!=` compare without a check; `&&`/`||` coerce
both operands with `bool()`; anything else is an unknown-operator
`RuntimeError`. -/
def interpBinaryOp (op : String) (l r : Option Value) (line column : Nat) :
    Except InterpExc (Option Value) :=
  let numCheck : Except InterpExc Unit :=
    if check_numeric l r then .ok ()
    else .error (.runtimeError "Operands must be numeric" (some line) (some column))
  match op with
  | "+" => do numCheck; applyNative pyAdd l r
  | "-" => do numCheck; applyNative pySub l r
  | "*" => do numCheck; applyNative pyMul l r
  | "/" => do
    numCheck
    if isPyZero r then
      .error (.runtimeError "Division by zero" (some line) (some column))
    else applyNative pyTrueDiv l r
  | "==" => .ok (some (.prim (.vbool (valueEq l r))))
  | "!=" => .ok (some (.prim (.vbool (!valueEq l r))))
  | "<" => do numCheck; applyComparison (· == .lt) l r
  | "<=" => do numCheck; applyComparison (· != .gt) l r
  | ">" => do numCheck; applyComparison (· == .gt) l r
  | ">=" => do numCheck; applyComparison (· != .lt) l r
  | "&&" => .ok (some (.prim (.vbool (truthy l && truthy r))))
  | "||" => .ok (some (.prim (.vbool (truthy l || truthy r))))
  | _ =>
    .error (.runtimeError ("Unknown binary operator '" ++ op ++ "'")
      (some line) (some column))

/-- The operator dispatch of `Interpreter.visit_unary_op`. -/
def interpUnaryOp (op : String) (operand : Option Value)
    (line column : Nat) : Except InterpExc (Option Value) :=
  match op with
  | "-" =>
    if check_numeric operand none then
      match operand with
      | some (.prim p) =>
        match asIntLike p with
        | some m => .ok (some (.prim (.vint (-m))))
        | none =>
          match p with
          | .vfloat q => .ok (some (.prim (.vfloat (-q))))
          | _ => .error (.pythonError "TypeError: bad operand type")
      | _ => .error (.pythonError "TypeError: bad operand type")
    else
      .error (.runtimeError "Operands must be numeric" (some line) (some column))
  | "!" => .ok (some (.prim (.vbool (!truthy operand))))
  | _ =>
    .error (.runtimeError ("Unknown unary operator '" ++ op ++ "'")
      (some line) (some column))

/-- Bind the parameter/argument pairs into a fresh `Environment` dict
(the `env.define` loop of `Function.call`). -/
def bindParams (pairs : List (String × Option Value)) : Frame :=
  pairs.foldl (fun f pv => dictUpsert f pv.1 pv.2) []

mutual

/-- `node.accept(interpreter)`: evaluate one AST node, threading the
interpreter's current environment chain.  Mirrors the `visit_*` methods of
`core/interpreter.py` case by case; statements yield `None`. -/
def eval : Nat → EnvChain → AST → EnvChain × Except InterpExc (Option Value)
  | 0, env, _ => (env, .error .recursionLimit)
  | fuel + 1, env, node =>
    match node with
    | .literalNode v _ _ => (env, .ok (some (.prim v)))
    | .variableNode name line col =>
      match envGet env name with
      | none =>
        (env, .error (.runtimeError ("Undefined variable '" ++ name ++ "'")
          (some line) (some col)))
      | some v => (env, .ok (some v))
    | .binaryOpNode left op right line col =>
      match eval fuel env left with
      | (env1, .error e) => (env1, .error e)
      | (env1, .ok l) =>
        match eval fuel env1 right with
        | (env2, .error e) => (env2, .error e)
        | (env2, .ok r) => (env2, interpBinaryOp op l r line col)
    | .unaryOpNode op operand line col =>
      match eval fuel env operand with
      | (env1, .error e) => (env1, .error e)
      | (env1, .ok v) => (env1, interpUnaryOp op v line col)
    | .callNode callee arguments line col =>
      match eval fuel env callee with
      | (env1, .error e) => (env1, .error e)
      | (env1, .ok c) =>
        match c with
        | some (.funcVal _fname fparams fbody fline fcol closure) =>
          match evalArgs fuel env1 arguments with
          | (env2, .error e) => (env2, .error e)
          | (env2, .ok args) =>
            match callFunction fuel env2 fparams fbody fline fcol closure args with
            | (env3, .error (.runtimeError msg _ _)) =>
              -- `except RuntimeError as e: raise RuntimeError(str(e), node.line, node.column)`
              (env3, .error (.runtimeError msg (some line) (some col)))
            | other => other
        | notCallable =>
          (env1, .error (.runtimeError
            ("Attempted to call non-function '" ++ valueRepr notCallable ++ "'")
            (some line) (some col)))
    | .variableDeclNode name initializer _ _ =>
      match initializer with
      | some e =>
        match eval fuel env e with
        | (env1, .error exc) => (env1, .error exc)
        | (env1, .ok v) => (envDefine env1 name v, .ok none)
      | none => (envDefine env name none, .ok none)
    | .assignmentNode target value line col =>
      match target with
      | .variableNode tname _ _ =>
        match eval fuel env value with
        | (env1, .error e) => (env1, .error e)
        | (env1, .ok v) =>
          let (found, env2) := envAssign env1 tname v
          if found then (env2, .ok none)
          else
            (env2, .error (.runtimeError ("Undefined variable '" ++ tname ++ "'")
              (some line) (some col)))
      | _ => (env, .error (.pythonError "AttributeError: target has no name"))
    | .blockNode statements _ _ =>
      -- `push_env()`; run the statements; `finally: pop_env()`
      match execStmts fuel ([] :: env) statements with
      | (env1, .ok _) => (env1.tail, .ok none)
      | (env1, .error e) => (env1.tail, .error e)
    | .ifNode condition then_branch else_branch _ _ =>
      match eval fuel env condition with
      | (env1, .error e) => (env1, .error e)
      | (env1, .ok c) =>
        if truthy c then
          match eval fuel env1 then_branch with
          | (env2, .error e) => (env2, .error e)
          | (env2, .ok _) => (env2, .ok none)
        else
          match else_branch with
          | some eb =>
            match eval fuel env1 eb with
            | (env2, .error e) => (env2, .error e)
            | (env2, .ok _) => (env2, .ok none)
          | none => (env1, .ok none)
    | .whileNode condition body line col =>
      match eval fuel env condition with
      | (env1, .error e) => (env1, .error e)
      | (env1, .ok c) =>
        if truthy c then
          match eval fuel env1 body with
          | (env2, .error e) => (env2, .error e)
          | (env2, .ok _) => eval fuel env2 (.whileNode condition body line col)
        else (env1, .ok none)
    | .forNode initializer condition increment body line col =>
      -- `push_env()`; init; loop; `finally: pop_env()`
      match eval fuel ([] :: env) initializer with
      | (env1, .error e) => (env1.tail, .error e)
      | (env1, .ok _) =>
        match forLoop fuel env1 condition increment body line col with
        | (env2, .ok _) => (env2.tail, .ok none)
        | (env2, .error e) => (env2.tail, .error e)
    | .returnNode value _ _ =>
      match value with
      | some e =>
        match eval fuel env e with
        | (env1, .error exc) => (env1, .error exc)
        | (env1, .ok v) => (env1, .error (.returnExc v))
      | none => (env, .error (.returnExc none))
    | .functionDefNode name params body line col =>
      (envDefine env name (some (.funcVal name params body line col env)), .ok none)

/-- Evaluate a call's argument list left to right. -/
def evalArgs : Nat → EnvChain → List AST →
    EnvChain × Except InterpExc (List (Option Value))
  | 0, env, _ => (env, .error .recursionLimit)
  | _ + 1, env, [] => (env, .ok [])
  | fuel + 1, env, a :: rest =>
    match eval fuel env a with
    | (env1, .error e) => (env1, .error e)
    | (env1, .ok v) =>
      match evalArgs fuel env1 rest with
      | (env2, .error e) => (env2, .error e)
      | (env2, .ok vs) => (env2, .ok (v :: vs))

/-- Run a block's statements in order (`visit_block`'s loop). -/
def execStmts : Nat → EnvChain → List AST → EnvChain × Except InterpExc Unit
  | 0, env, _ => (env, .error .recursionLimit)
  | _ + 1, env, [] => (env, .ok ())
  | fuel + 1, env, s :: rest =>
    match eval fuel env s with
    | (env1, .error e) => (env1, .error e)
    | (env1, .ok _) => execStmts fuel env1 rest

/-- The test/body/increment loop of `visit_for`. -/
def forLoop : Nat → EnvChain → AST → AST → AST → Nat → Nat →
    EnvChain × Except InterpExc Unit
  | 0, env, _, _, _, _, _ => (env, .error .recursionLimit)
  | fuel + 1, env, condition, increment, body, line, col =>
    match eval fuel env condition with
    | (env1, .error e) => (env1, .error e)
    | (env1, .ok c) =>
      if truthy c then
        match eval fuel env1 body with
        | (env2, .error e) => (env2, .error e)
        | (env2, .ok _) =>
          match eval fuel env2 increment with
          | (env3, .error e) => (env3, .error e)
          | (env3, .ok _) => forLoop fuel env3 condition increment body line col
      else (env1, .ok ())

/-- `Function.call`.  In source order: build the call environment
`Environment(parent=self.closure)`, check the arity (raising a
`RuntimeError` that names both counts, positioned at the declaration),
bind the parameters, then `push_env()` — whose freshly pushed child of the
caller's environment is immediately overwritten by `self.env = env` — run
the body, catch `ReturnException` as the result, and in all cases
`finally: pop_env()`, which steps to the parent of the *call* environment,
i.e. the function's closure. -/
def callFunction : Nat → EnvChain → List String → AST → Nat → Nat →
    List Frame → List (Option Value) →
    EnvChain × Except InterpExc (Option Value)
  | 0, env, _, _, _, _, _, _ => (env, .error .recursionLimit)
  | fuel + 1, callerEnv, params, body, fline, fcol, closure, args =>
    if args.length ≠ params.length then
      (callerEnv, .error (.runtimeError
        ("Expected " ++ toString params.length ++ " arguments but got "
          ++ toString args.length)
        (some fline) (some fcol)))
    else
      -- `env = Environment(parent=self.closure)` with the parameters bound;
      -- `interpreter.push_env()` allocates a child of the caller's
      -- environment that is discarded by the following `interpreter.env = env`.
      let env : EnvChain := bindParams (params.zip args) :: closure
      match eval fuel env body with
      | (env2, .ok _) => (env2.tail, .ok none)
      | (env2, .error (.returnExc v)) => (env2.tail, .ok v)
      | (env2, .error e) => (env2.tail, .error e)

end

/-! Runtime environment (`runtime/runtime_env.py`).

Only the pieces the claims exercise are embedded: parent-linked scopes,
the call stack, `lookup_function` (the source's stub registry) and
`call_function`.  The scope values are an arbitrary type `α`, as the
Python dicts hold any value. -/

/-- A runtime `Scope`: a symbol dict and an optional outer scope. -/
inductive RScope (α : Type) where
  | mk (symbols : List (String × α)) (parent : Option (RScope α))

/-- The `symbols` field. -/
def RScope.symbols {α : Type} : RScope α → List (String × α)
  | .mk s _ => s

/-- `Scope.declare`: error on a redeclaration in this scope, otherwise
bind. -/
def RScope.declare {α : Type} (s : RScope α) (name : String) (value : α) :
    Except String (RScope α) :=
  match s with
  | .mk syms parent =>
    if (dictGet syms name).isSome then
      .error ("Variable '" ++ name ++ "' already declared in current scope.")
    else .ok (.mk (syms ++ [(name, value)]) parent)

/-- A call frame (`StackFrame`): function name, local scope, optional
return address and instruction pointer. -/
structure StackFrame (α : Type) where
  function_name : String
  local_scope : RScope α
  return_address : Option Nat := none
  instruction_pointer : Nat := 0

/-- The runtime environment: the global scope and the call stack (the
bottom frame is the `<global>` frame pushed by `__init__`). -/
structure RuntimeEnv (α : Type) where
  global_scope : RScope α
  call_stack : List (StackFrame α)

/-- `RuntimeEnv.__init__`. -/
def RuntimeEnv.new (α : Type) : RuntimeEnv α :=
  let global_scope : RScope α := .mk [] none
  { global_scope := global_scope,
    call_stack := [{ function_name := "<global>",
                     local_scope := .mk [] (some global_scope) }] }

/-- Function metadata, as returned by the `lookup_function` stub. -/
structure FuncMeta where
  params : List String

/-- `RuntimeEnv.lookup_function`: the source's example registry (`foo` with
two parameters, `bar` with none); anything else is an undefined-function
`RuntimeError`. -/
def lookup_function (function_name : String) : Except String FuncMeta :=
  if function_name = "foo" then .ok { params := ["x", "y"] }
  else if function_name = "bar" then .ok { params := [] }
  else .error ("Function '" ++ function_name ++ "' is not defined.")

/-- The argument-binding loop of `call_function`. -/
def bindScope {α : Type} (s : RScope α) :
    List (String × α) → Except String (RScope α)
  | [] => .ok s
  | (name, value) :: rest =>
    match s.declare name value with
    | .error e => .error e
    | .ok s' => bindScope s' rest

/-- `RuntimeEnv.call_function`: look the function up, raise a
`RuntimeError` naming expected and actual counts when the argument count
differs from the parameter count, otherwise push a frame parented at the
global scope with the arguments bound. -/
def RuntimeEnv.call_function {α : Type} (env : RuntimeEnv α)
    (function_name : String) (args : List α) :
    Except String (StackFrame α × RuntimeEnv α) :=
  match lookup_function function_name with
  | .error e => .error e
  | .ok func_meta =>
    if args.length ≠ func_meta.params.length then
      .error ("Function '" ++ function_name ++ "' expects "
        ++ toString func_meta.params.length ++ " arguments, got "
        ++ toString args.length ++ ".")
    else
      match bindScope (.mk [] (some env.global_scope))
          (func_meta.params.zip args) with
      | .error e => .error e
      | .ok scope =>
        let frame : StackFrame α :=
          { function_name := function_name, local_scope := scope }
        .ok (frame, { env with call_stack := env.call_stack ++ [frame] })

/-! Association-list (Python dict) lemmas shared by the theorems below. -/

/-- A key absent from the front of an appended dict is looked up in the
back. -/
theorem dictGet_append_of_none {κ α : Type} [BEq κ] {l : List (κ × α)}
    {k : κ} (l2 : List (κ × α)) (h : dictGet l k = none) :
    dictGet (l ++ l2) k = dictGet l2 k := by
  induction l with
  | nil => simp
  | cons p rest ih =>
    obtain ⟨pk, pv⟩ := p
    by_cases hk : (pk == k) = true
    · simp [dictGet, hk] at h
    · simp [dictGet, hk] at h ⊢
      exact ih h

/-- Looking up a freshly appended binding. -/
theorem dictGet_append_self {κ α : Type} [BEq κ] [LawfulBEq κ]
    {l : List (κ × α)} {k : κ} (v : α) (h : dictGet l k = none) :
    dictGet (l ++ [(k, v)]) k = some v := by
  rw [dictGet_append_of_none _ h]
  simp [dictGet]

/-- `dictUpsert` makes the binding visible. -/
theorem dictGet_dictUpsert_self {κ α : Type} [BEq κ] [LawfulBEq κ]
    (l : List (κ × α)) (k : κ) (v : α) :
    dictGet (dictUpsert l k v) k = some v := by
  unfold dictUpsert
  by_cases h : (dictGet l k).isSome
  · simp [h]
    induction l with
    | nil => simp [dictGet] at h
    | cons p rest ih =>
      obtain ⟨pk, pv⟩ := p
      by_cases hk : (pk == k) = true
      · simp [dictSet, hk, dictGet]
      · simp [dictGet, hk] at h
        simp [dictSet, hk, dictGet, ih h]
  · simp [h]
    exact dictGet_append_self v (by
      cases hg : dictGet l k
      · rfl
      · simp [hg] at h)

/-- A successful lookup is a membership. -/
theorem mem_of_dictGet_eq_some {κ α : Type} [BEq κ] {l : List (κ × α)}
    {k : κ} {v : α} (h : dictGet l k = some v) : ∃ k2, (k2, v) ∈ l := by
  induction l with
  | nil => simp [dictGet] at h
  | cons p rest ih =>
    obtain ⟨pk, pv⟩ := p
    by_cases hk : (pk == k) = true
    · simp [dictGet, hk] at h
      exact ⟨pk, by simp [h]⟩
    · simp [dictGet, hk] at h
      obtain ⟨k2, hm⟩ := ih h
      exact ⟨k2, by simp [hm]⟩

/-- A failing lookup means the key is not present. -/
theorem dictGet_eq_none_iff {κ α : Type} [BEq κ] [LawfulBEq κ]
    {l : List (κ × α)} {k : κ} :
    dictGet l k = none ↔ k ∉ l.map Prod.fst := by
  induction l with
  | nil => simp [dictGet]
  | cons p rest ih =>
    obtain ⟨pk, pv⟩ := p
    by_cases hk : (pk == k) = true
    · have : pk = k := by simpa using hk
      subst this
      simp [dictGet, hk]
    · have hne : ¬ pk = k := by simpa using hk
      simp [dictGet, hk, ih]
      tauto

/-- `dictSet` does not change the key list. -/
theorem dictSet_map_fst {κ α : Type} [BEq κ] (l : List (κ × α)) (k : κ)
    (v : α) : (dictSet l k v).map Prod.fst = l.map Prod.fst := by
  induction l with
  | nil => simp [dictSet]
  | cons p rest ih =>
    obtain ⟨pk, pv⟩ := p
    by_cases hk : (pk == k) = true
    · simp [dictSet, hk]
    · simp [dictSet, hk, ih]

/-- Every entry of `dictSet l k v` is an entry of `l` or carries the new
value at a key that was already present. -/
theorem mem_dictSet {κ α : Type} [BEq κ] {l : List (κ × α)} {k : κ}
    {v : α} :
    ∀ p ∈ dictSet l k v, p ∈ l ∨ (p.2 = v ∧ p.1 ∈ l.map Prod.fst) := by
  induction l with
  | nil => simp [dictSet]
  | cons q rest ih =>
    obtain ⟨qk, qv⟩ := q
    intro p hp
    by_cases hk : (qk == k) = true
    · simp [dictSet, hk] at hp
      rcases hp with h | h
      · right
        constructor
        · simp [h]
        · simp [h]
      · left; simp [h]
    · simp [dictSet, hk] at hp
      rcases hp with h | h
      · left; simp [h]
      · rcases ih p h with h2 | h2
        · left; simp [h2]
        · right
          exact ⟨h2.1, by simp [h2.2]⟩

/-- Updating a present key is visible to `dictGet`. -/
theorem dictGet_dictSet_self {κ α : Type} [BEq κ] {l : List (κ × α)}
    {k : κ} {o : α} (h : dictGet l k = some o) (v : α) :
    dictGet (dictSet l k v) k = some v := by
  induction l with
  | nil => simp [dictGet] at h
  | cons p rest ih =>
    obtain ⟨pk, pv⟩ := p
    by_cases hk : (pk == k) = true
    · simp [dictSet, hk, dictGet]
    · simp [dictGet, hk] at h
      simp [dictSet, hk, dictGet, ih h]

/-- `dictRemove` is a sublist. -/
theorem dictRemove_sublist {κ α : Type} [BEq κ] (l : List (κ × α))
    (k : κ) : (dictRemove l k).Sublist l := by
  induction l with
  | nil => simp [dictRemove]
  | cons p rest ih =>
    obtain ⟨pk, pv⟩ := p
    by_cases hk : (pk == k) = true
    · simp only [dictRemove, hk, if_true]
      exact List.sublist_cons_self _ _
    · simp only [dictRemove, hk, if_false]
      exact List.Sublist.cons₂ (pk, pv) ih

/-- Removing a key really removes it when the keys are unique. -/
theorem dictGet_dictRemove_self {κ α : Type} [BEq κ] [LawfulBEq κ]
    {l : List (κ × α)} (hnd : (l.map Prod.fst).Nodup) (k : κ) :
    dictGet (dictRemove l k) k = none := by
  induction l with
  | nil => simp [dictRemove, dictGet]
  | cons p rest ih =>
    obtain ⟨pk, pv⟩ := p
    rw [List.map_cons, List.nodup_cons] at hnd
    by_cases hk : (pk == k) = true
    · have hpk : pk = k := by simpa using hk
      subst hpk
      simp only [dictRemove, hk, if_true]
      rw [dictGet_eq_none_iff]
      exact hnd.1
    · simp only [dictRemove, hk, if_false]
      simp only [dictGet, hk, if_false]
      exact ih hnd.2

/-! Claim theorems. -/

/-- C1: the claim states that constant folding of the IR expression
`2 + 3 * 4` yields a single Int `Constant` 14.  On the code it does not:
the pass folds the inner `3 * 4` into the rewritten `children` list, but
`_fold_binary_op` inspects the stale `left`/`right` attributes, which
still hold the original unfolded `BinaryOp`, so the outer node stays an
unfolded `EXPRESSION` node with children `[Constant 2, Constant 12]` —
both after the folding pass alone and after the full `optimize()`. -/
theorem C1_constant_folding_2_plus_3_times_4 :
    constant_folding_pass
        (IRNode.mkBinaryOp "+" (IRNode.mkConstant (.vint 2) (some "int"))
          (IRNode.mkBinaryOp "*" (IRNode.mkConstant (.vint 3) (some "int"))
            (IRNode.mkConstant (.vint 4) (some "int")))) =
      IRNode.binaryOpNode "+" (IRNode.mkConstant (.vint 2) (some "int"))
        (IRNode.mkBinaryOp "*" (IRNode.mkConstant (.vint 3) (some "int"))
          (IRNode.mkConstant (.vint 4) (some "int")))
        [IRNode.mkConstant (.vint 2) (some "int"),
         IRNode.mkConstant (.vint 12) (some "int")]
    ∧ (constant_folding_pass
        (IRNode.mkBinaryOp "+" (IRNode.mkConstant (.vint 2) (some "int"))
          (IRNode.mkBinaryOp "*" (IRNode.mkConstant (.vint 3) (some "int"))
            (IRNode.mkConstant (.vint 4) (some "int"))))).node_type =
        NodeType.EXPRESSION
    ∧ (∀ (value : PyVal) (const_type : Option String) (ch : List IRNode),
        optimize
            (IRNode.mkBinaryOp "+" (IRNode.mkConstant (.vint 2) (some "int"))
              (IRNode.mkBinaryOp "*" (IRNode.mkConstant (.vint 3) (some "int"))
                (IRNode.mkConstant (.vint 4) (some "int")))) ≠
          IRNode.constantNode value const_type ch) := by
  refine ⟨rfl, rfl, ?_⟩
  intro value const_type ch h
  have heq : optimize
      (IRNode.mkBinaryOp "+" (IRNode.mkConstant (.vint 2) (some "int"))
        (IRNode.mkBinaryOp "*" (IRNode.mkConstant (.vint 3) (some "int"))
          (IRNode.mkConstant (.vint 4) (some "int")))) =
      IRNode.binaryOpNode "+" (IRNode.mkConstant (.vint 2) (some "int"))
        (IRNode.mkBinaryOp "*" (IRNode.mkConstant (.vint 3) (some "int"))
          (IRNode.mkConstant (.vint 4) (some "int")))
        [IRNode.mkConstant (.vint 2) (some "int"),
         IRNode.mkConstant (.vint 12) (some "int")] := rfl
  rw [heq] at h
  exact IRNode.noConfusion h

/-- C2 counterexample: the claim states that after dead-code elimination
an `If` with a constant `Bool` condition is replaced by its taken branch
and a `While` with constant-false condition by an empty block.  On the
code the pass returns both nodes completely unchanged: the result of the
pass on a constant-true `If` is still the same `If` node (node type `IF`,
both branches present), and on a constant-false `While` still the same
`While` node. -/
theorem C2_dce_if_while_counterexample :
    dead_code_elimination_pass
        (IRNode.mkIf (IRNode.mkConstant (.vbool true) (some "bool"))
          [IRNode.mkAssignment (IRNode.mkVariable "x" none)
            (IRNode.mkConstant (.vint 1) (some "int"))]
          [IRNode.mkAssignment (IRNode.mkVariable "x" none)
            (IRNode.mkConstant (.vint 2) (some "int"))]) =
      IRNode.mkIf (IRNode.mkConstant (.vbool true) (some "bool"))
        [IRNode.mkAssignment (IRNode.mkVariable "x" none)
          (IRNode.mkConstant (.vint 1) (some "int"))]
        [IRNode.mkAssignment (IRNode.mkVariable "x" none)
          (IRNode.mkConstant (.vint 2) (some "int"))]
    ∧ (dead_code_elimination_pass
        (IRNode.mkIf (IRNode.mkConstant (.vbool true) (some "bool"))
          [IRNode.mkAssignment (IRNode.mkVariable "x" none)
            (IRNode.mkConstant (.vint 1) (some "int"))]
          [IRNode.mkAssignment (IRNode.mkVariable "x" none)
            (IRNode.mkConstant (.vint 2) (some "int"))])).node_type =
        NodeType.IF
    ∧ dead_code_elimination_pass
        (IRNode.mkWhile (IRNode.mkConstant (.vbool false) (some "bool"))
          [IRNode.mkAssignment (IRNode.mkVariable "x" none)
            (IRNode.mkConstant (.vint 1) (some "int"))]) =
      IRNode.mkWhile (IRNode.mkConstant (.vbool false) (some "bool"))
        [IRNode.mkAssignment (IRNode.mkVariable "x" none)
          (IRNode.mkConstant (.vint 1) (some "int"))]
    ∧ (dead_code_elimination_pass
        (IRNode.mkWhile (IRNode.mkConstant (.vbool false) (some "bool"))
          [IRNode.mkAssignment (IRNode.mkVariable "x" none)
            (IRNode.mkConstant (.vint 1) (some "int"))])).node_type =
        NodeType.WHILE :=
  ⟨rfl, rfl, rfl, rfl⟩

/-- C2 amended: the dead-code-elimination pass rewrites only `FUNCTION`
and `BLOCK` nodes, dropping the statements that follow an unconditional
`return`; `If` and `While` nodes — constant condition or not — are
returned unchanged.  The last conjunct is the spec's own block example:
`{ return 1; x = 2; }` keeps only `{ return 1; }` in its children. -/
theorem C2_dce_only_blocks_amended :
    (∀ (c : IRNode) (tb eb ch : List IRNode),
      dead_code_elimination_pass (IRNode.ifNode c tb eb ch) =
        IRNode.ifNode c tb eb ch)
    ∧ (∀ (c : IRNode) (b ch : List IRNode),
      dead_code_elimination_pass (IRNode.whileNode c b ch) =
        IRNode.whileNode c b ch)
    ∧ dead_code_elimination_pass
        (IRNode.mkBlock
          [IRNode.mkReturn (some (IRNode.mkConstant (.vint 1) (some "int"))),
           IRNode.mkAssignment (IRNode.mkVariable "x" none)
             (IRNode.mkConstant (.vint 2) (some "int"))]) =
      IRNode.blockNode
        [IRNode.mkReturn (some (IRNode.mkConstant (.vint 1) (some "int"))),
         IRNode.mkAssignment (IRNode.mkVariable "x" none)
           (IRNode.mkConstant (.vint 2) (some "int"))]
        [IRNode.mkReturn (some (IRNode.mkConstant (.vint 1) (some "int")))] := by
  refine ⟨?_, ?_, rfl⟩
  · intro c tb eb ch
    unfold dead_code_elimination_pass
    cases msize (IRNode.ifNode c tb eb ch) <;> simp [dceFuel]
  · intro c b ch
    unfold dead_code_elimination_pass
    cases msize (IRNode.whileNode c b ch) <;> simp [dceFuel]

/-- C3: the claim states numeric promotion in both argument orders.  On
the code `FloatType.unify(IntType)` is indeed `Float` and
`BoolType.unify(IntType)` is `None`, but `IntType.unify(FloatType)` is
`None`: `IntType` inherits `Type.unify`, whose `self == other` test uses
`IntType.__eq__`, which rejects `FloatType` — contradicting the module's
own usage example (`int_t.unify(float_t)  # FloatType`). -/
theorem C3_unify_numeric_promotion :
    unify Ty.int Ty.float = none
    ∧ unify Ty.float Ty.int = some Ty.float
    ∧ unify Ty.bool Ty.int = none := by
  refine ⟨?_, ?_, ?_⟩ <;> simp [unify, pyTyEq]

/-- C5 counterexample: the claim quantifies over every two struct types
and asserts subtyping whenever all of B's declared fields are present in A
with subtype-compatible types.  `StructType.is_subtype_of` additionally
requires the two struct *names* to be equal: struct `A {a: Int}` is not a
subtype of struct `B {}` although `B` declares no fields at all. -/
theorem C5_struct_width_subtyping_counterexample :
    is_subtype_of (Ty.struct "A" [("a", Ty.int)]) (Ty.struct "B" []) =
      false := by
  simp [is_subtype_of]

/-- C5 amended: for two struct types *with the same name*,
`is_subtype_of(A, B)` holds whenever every field B declares is present in
A with a subtype-compatible type (A may have extra fields); in particular
a struct `P {a: Int, b: Int}` is a subtype of `P {a: Int}` and not vice
versa. -/
theorem C5_struct_width_subtyping_amended :
    (∀ (name : String) (fA fB : List (String × Ty)),
      (∀ kv ∈ fB, ∃ t2, dictGet fA kv.1 = some t2
          ∧ is_subtype_of t2 kv.2 = true) →
      is_subtype_of (Ty.struct name fA) (Ty.struct name fB) = true)
    ∧ is_subtype_of (Ty.struct "P" [("a", Ty.int), ("b", Ty.int)])
        (Ty.struct "P" [("a", Ty.int)]) = true
    ∧ is_subtype_of (Ty.struct "P" [("a", Ty.int)])
        (Ty.struct "P" [("a", Ty.int), ("b", Ty.int)]) = false := by
  refine ⟨?_, ?_, ?_⟩
  · intro name fA fB h
    simp only [is_subtype_of, beq_self_eq_true, Bool.true_and]
    induction fB with
    | nil => simp [subtypeFields]
    | cons kv rest ih =>
      obtain ⟨k, typ⟩ := kv
      obtain ⟨t2, hg, hs⟩ := h (k, typ) (by simp)
      have hrest := ih (fun kv2 hm => h kv2 (by simp [hm]))
      simp only [subtypeFields, hrest, Bool.and_true]
      split
      · next mine heq =>
        rw [hg] at heq
        injection heq with h2
        subst h2
        exact hs
      · next heq =>
        rw [hg] at heq
        cases heq
  · simp [is_subtype_of, subtypeFields, dictGet, pyTyEq]
  · simp [is_subtype_of, subtypeFields, dictGet, pyTyEq]

/-- C5 witness: the amended subtyping rule applied at the concrete structs
`P {a: Int, b: Int}` and `P {a: Int}`. -/
theorem C5_struct_width_subtyping_witness :
    is_subtype_of (Ty.struct "P" [("a", Ty.int), ("b", Ty.int)])
      (Ty.struct "P" [("a", Ty.int)]) = true :=
  C5_struct_width_subtyping_amended.1 "P" [("a", Ty.int), ("b", Ty.int)]
    [("a", Ty.int)]
    (by
      intro kv hm
      simp at hm
      subst hm
      exact ⟨Ty.int, by simp [dictGet], by simp [is_subtype_of, pyTyEq]⟩)

/-- C6: a `BinaryOp '/'` whose operands are both `Constant` with the
integer constant `0` on the right is left completely unchanged by
`optimize()` (the `ZeroDivisionError` raised during folding is swallowed
and the fold skipped; dead-code elimination does not touch expression
nodes), and the tree-walking interpreter raises
`RuntimeError "Division by zero"` carrying the binary-op node's source
position when the division is executed. -/
theorem C6_division_by_zero_left_unfolded :
    (∀ (v : PyVal) (lt rt : Option String),
      optimize
          (IRNode.mkBinaryOp "/" (IRNode.constantNode v lt [])
            (IRNode.constantNode (.vint 0) rt [])) =
        IRNode.mkBinaryOp "/" (IRNode.constantNode v lt [])
          (IRNode.constantNode (.vint 0) rt []))
    ∧ (∀ (a : Int) (fuel : Nat) (env : EnvChain) (l1 c1 l2 c2 line col : Nat),
      eval (fuel + 2) env
          (AST.binaryOpNode (.literalNode (.vint a) l1 c1) "/"
            (.literalNode (.vint 0) l2 c2) line col) =
        (env, .error (.runtimeError "Division by zero"
          (some line) (some col)))) := by
  constructor
  · intro v lt rt
    cases v <;> rfl
  · intro a fuel env l1 c1 l2 c2 line col
    rfl

/-- C4: the claim states that `Function.call` pushes an `Environment` on
entry and pops on every exit path so that afterwards the interpreter's
environment is exactly the caller's environment from before the call.  On
the code the environment pushed by `push_env()` is immediately discarded
by `interpreter.env = env`, and the `finally: pop_env()` steps to
`env.parent`, which is the function's *closure* — here the global frame
`[("g", 7)]` — and not the caller's block-local chain
`[("local", 1)] :: [("g", 7)]`: on normal completion, on explicit return,
and on a raised `RuntimeError` alike, the call finishes in the closure
environment, which differs from the caller's. -/
theorem C4_call_finishes_in_closure_not_caller :
    callFunction 10 [[("local", some (.prim (.vint 1)))],
        [("g", some (.prim (.vint 7)))]] [] (AST.blockNode [] 1 0) 1 0
        [[("g", some (.prim (.vint 7)))]] [] =
      ([[("g", some (.prim (.vint 7)))]], .ok none)
    ∧ callFunction 10 [[("local", some (.prim (.vint 1)))],
        [("g", some (.prim (.vint 7)))]]
        [] (AST.blockNode [AST.returnNode (some (.literalNode (.vint 5) 1 0)) 1 0] 1 0)
        1 0 [[("g", some (.prim (.vint 7)))]] [] =
      ([[("g", some (.prim (.vint 7)))]], .ok (some (.prim (.vint 5))))
    ∧ callFunction 10 [[("local", some (.prim (.vint 1)))],
        [("g", some (.prim (.vint 7)))]]
        [] (AST.blockNode [AST.variableNode "nope" 1 0] 1 0)
        1 0 [[("g", some (.prim (.vint 7)))]] [] =
      ([[("g", some (.prim (.vint 7)))]],
        .error (.runtimeError "Undefined variable 'nope'" (some 1) (some 0)))
    ∧ ([[("g", some (.prim (.vint 7)))]] : EnvChain) ≠
        [[("local", some (.prim (.vint 1)))], [("g", some (.prim (.vint 7)))]] := by
  refine ⟨rfl, rfl, rfl, ?_⟩
  intro h
  simpa using congrArg List.length h

/-- C9: a call whose argument count differs from the declared parameter
count raises a `RuntimeError` whose message names both counts, in both
`Function.call` of the tree-walking interpreter (before any environment
is entered) and `RuntimeEnv.call_function` (before any frame is pushed);
the existential conjuncts exhibit the two counts inside the message. -/
theorem C9_arity_mismatch_runtime_error :
    (∀ (fuel : Nat) (callerEnv : EnvChain) (params : List String)
        (body : AST) (fline fcol : Nat) (closure : List Frame)
        (args : List (Option Value)),
      args.length ≠ params.length →
      callFunction (fuel + 1) callerEnv params body fline fcol closure args =
        (callerEnv, .error (.runtimeError
          ("Expected " ++ toString params.length ++ " arguments but got "
            ++ toString args.length)
          (some fline) (some fcol)))
      ∧ ∃ pre mid,
          ("Expected " ++ toString params.length ++ " arguments but got "
            ++ toString args.length) =
            pre ++ toString params.length ++ mid ++ toString args.length)
    ∧ (∀ (α : Type) (env : RuntimeEnv α) (function_name : String)
        (args : List α) (func_meta : FuncMeta),
      lookup_function function_name = .ok func_meta →
      args.length ≠ func_meta.params.length →
      env.call_function function_name args =
        .error ("Function '" ++ function_name ++ "' expects "
          ++ toString func_meta.params.length ++ " arguments, got "
          ++ toString args.length ++ ".")
      ∧ ∃ pre mid post,
          ("Function '" ++ function_name ++ "' expects "
            ++ toString func_meta.params.length ++ " arguments, got "
            ++ toString args.length ++ ".") =
            pre ++ toString func_meta.params.length ++ mid
              ++ toString args.length ++ post) := by
  constructor
  · intro fuel callerEnv params body fline fcol closure args h
    refine ⟨?_, "Expected ", " arguments but got ", rfl⟩
    simp [callFunction, h]
  · intro α env function_name args func_meta hlookup h
    refine ⟨?_, "Function '" ++ function_name ++ "' expects ",
      " arguments, got ", ".", rfl⟩
    simp [RuntimeEnv.call_function, hlookup, h]

/-- C9 witness: a two-parameter function called with zero arguments in the
interpreter, and the stub-registered two-parameter `foo` called with one
argument in the runtime environment. -/
theorem C9_arity_mismatch_witness :
    callFunction 1 [] ["x", "y"] (AST.blockNode [] 0 0) 3 4 [] [] =
      ([], .error (.runtimeError "Expected 2 arguments but got 0"
        (some 3) (some 4)))
    ∧ (RuntimeEnv.new Nat).call_function "foo" [5] =
        .error "Function 'foo' expects 2 arguments, got 1." := by
  constructor
  · exact (C9_arity_mismatch_runtime_error.1 0 [] ["x", "y"]
      (AST.blockNode [] 0 0) 3 4 [] [] (by decide)).1
  · exact (C9_arity_mismatch_runtime_error.2 Nat (RuntimeEnv.new Nat) "foo"
      [5] { params := ["x", "y"] } rfl (by decide)).1

/-- C10: `Environment.get` returns `None` both for an unbound name and
for a name bound to `None`, so `visit_variable` raises
`RuntimeError "Undefined variable ..."` whenever the current binding is
`None`; in particular a variable declared without an initializer (which
`visit_variable_decl` binds to `None`) raises that error when read before
being assigned a non-`None` value. -/
theorem C10_none_binding_reads_as_undefined :
    (∀ (fuel : Nat) (env : EnvChain) (name : String) (line col : Nat),
      envGet env name = none →
      eval (fuel + 1) env (.variableNode name line col) =
        (env, .error (.runtimeError ("Undefined variable '" ++ name ++ "'")
          (some line) (some col))))
    ∧ (∀ (f : Frame) (rest : EnvChain) (name : String),
      dictGet f name = some none → envGet (f :: rest) name = none)
    ∧ (∀ (fuel : Nat) (f : Frame) (rest : EnvChain) (name : String)
        (l1 c1 l2 c2 : Nat),
      (eval (fuel + 1) (f :: rest) (.variableDeclNode name none l1 c1)).1 =
        envDefine (f :: rest) name none
      ∧ eval (fuel + 1) (envDefine (f :: rest) name none)
          (.variableNode name l2 c2) =
        (envDefine (f :: rest) name none,
          .error (.runtimeError ("Undefined variable '" ++ name ++ "'")
            (some l2) (some c2)))) := by
  refine ⟨?_, ?_, ?_⟩
  · intro fuel env name line col h
    simp [eval, h]
  · intro f rest name h
    simp [envGet, h]
  · intro fuel f rest name l1 c1 l2 c2
    refine ⟨rfl, ?_⟩
    have hget : envGet (envDefine (f :: rest) name none) name = none := by
      simp [envDefine, envGet, dictGet_dictUpsert_self]
    simp [eval, hget]

/-- C10 witness: a name bound to `None` (here by an initializer-less
declaration) reads as an undefined variable. -/
theorem C10_none_binding_witness :
    envGet [[("x", none)]] "x" = none
    ∧ eval 1 [[("x", none)]] (.variableNode "x" 2 3) =
        ([[("x", none)]],
          .error (.runtimeError "Undefined variable 'x'" (some 2) (some 3))) := by
  constructor
  · exact C10_none_binding_reads_as_undefined.2.1 [("x", none)] [] "x" rfl
  · exact C10_none_binding_reads_as_undefined.1 0 [[("x", none)]] "x" 2 3 rfl

/-- C8: `SymbolTable.insert` fails exactly when the name already exists in
the current innermost scope (shadowing an outer-scope binding succeeds),
and `lookup` returns the innermost match: starting from any table whose
innermost scope does not bind `x`, inserting `x : t1`, entering a scope
and inserting `x : t2` makes `lookup x` return the inner `t2` binding, and
after `exit_scope` it returns the outer `t1` binding again. -/
theorem C8_symbol_table_insert_and_shadowing :
    (∀ (st : SymbolTable) (cur : Scope) (name : String) (typ : Ty),
      st.scopes.getLast? = some cur →
      ((∃ e, st.insert name typ = .error e) ↔
        (dictGet cur.symbols name).isSome = true))
    ∧ (∀ (init : List Scope) (cur : Scope) (lvl : Int) (x : String)
        (t1 t2 : Ty), 0 ≤ lvl → dictGet cur.symbols x = none →
      ((do
          let r1 ← SymbolTable.insert ⟨init ++ [cur], lvl⟩ x t1
          let r2 ← r1.2.enter_scope.insert x t2
          let inner := (r2.2.lookup x).map Symbol.type
          let st3 ← r2.2.exit_scope
          pure (inner, (st3.lookup x).map Symbol.type)) :
        Except String (Option Ty × Option Ty)) = .ok (some t2, some t1)) := by
  constructor
  · intro st cur name typ hlast
    constructor
    · rintro ⟨e, he⟩
      by_cases hd : (dictGet cur.symbols name).isSome = true
      · exact hd
      · simp [SymbolTable.insert, Scope.insert, hlast, hd] at he
    · intro hd
      exact ⟨"Symbol '" ++ name ++ "' already declared in current scope (level "
          ++ toString cur.level ++ ").",
        by simp [SymbolTable.insert, Scope.insert, hlast, hd]⟩
  · intro init cur lvl x t1 t2 hlvl hx
    have hx' : (dictGet cur.symbols x).isSome = false := by simp [hx]
    have hne : ¬ (lvl + 1 < 0) := by omega
    simp [SymbolTable.insert, Scope.insert, SymbolTable.enter_scope,
      SymbolTable.exit_scope, SymbolTable.lookup, Scope.lookup, scopesLookup,
      List.getLast?_concat, List.dropLast_concat, hx', hne, bind, Except.bind,
      pure, Except.pure, dictGet_append_self _ hx, dictGet]

/-- C8 witness: the shadowing script run on a fresh symbol table
(`let x : Int` at the global level, then `let x : Float` in an inner
scope). -/
theorem C8_symbol_table_witness :
    ((do
        let r1 ← SymbolTable.insert ⟨[] ++ [{ level := 0, symbols := [] }], 0⟩
          "x" Ty.int
        let r2 ← r1.2.enter_scope.insert "x" Ty.float
        let inner := (r2.2.lookup "x").map Symbol.type
        let st3 ← r2.2.exit_scope
        pure (inner, (st3.lookup "x").map Symbol.type)) :
      Except String (Option Ty × Option Ty)) = .ok (some Ty.float, some Ty.int) :=
  C8_symbol_table_insert_and_shadowing.2 [] { level := 0, symbols := [] } 0
    "x" Ty.int Ty.float (by decide) rfl

/-! Heap lemmas for the memory-manager claim. -/

/-- Updating then removing a key is the same as removing it. -/
theorem dictRemove_dictSet {κ α : Type} [BEq κ] (l : List (κ × α)) (k : κ)
    (v : α) : dictRemove (dictSet l k v) k = dictRemove l k := by
  induction l with
  | nil => simp [dictSet, dictRemove]
  | cons q rest ih =>
    obtain ⟨qk, qv⟩ := q
    by_cases hk : (qk == k) = true
    · simp [dictSet, dictRemove, hk]
    · simp [dictSet, dictRemove, hk, ih]

/-- A successful `allocate` preserves the heap invariants, picks a fresh
address, and stores the value with reference count 1. -/
theorem heapInv_allocate {m : MemoryManager} (h : HeapInv m)
    {v : RuntimeValue} {a : Nat} {m' : MemoryManager}
    (halloc : m.allocate v = .ok (a, m')) :
    HeapInv m' ∧ dictGet m.heap a = none
      ∧ dictGet m'.heap a = some { value := v, ref_count := 1 } := by
  obtain ⟨hcnt, hnd, hlt⟩ := h
  unfold MemoryManager.allocate at halloc
  by_cases hsz : m.used_heap_size + v.size_in_bytes > m.heap_size
  · simp [hsz] at halloc
  · simp [hsz] at halloc
    obtain ⟨ha, hm⟩ := halloc
    subst ha
    have hfresh : dictGet m.heap m.next_addr = none := by
      rw [dictGet_eq_none_iff]
      intro hmem
      obtain ⟨p, hp, hp1⟩ := List.mem_map.mp hmem
      exact absurd (hp1 ▸ hlt p hp) (lt_irrefl _)
    refine ⟨⟨?_, ?_, ?_⟩, hfresh, ?_⟩
    · intro p hp
      rw [← hm] at hp
      simp at hp
      rcases hp with hp | hp
      · exact hcnt p hp
      · simp [hp]
    · rw [← hm]
      simp only [List.map_append, List.map_cons, List.map_nil]
      rw [List.nodup_append]
      refine ⟨hnd, by simp, ?_⟩
      intro x hx hx2
      simp at hx2
      subst hx2
      obtain ⟨p, hp, hp1⟩ := List.mem_map.mp hx
      have := hlt p hp
      omega
    · intro p hp
      rw [← hm] at hp
      simp at hp
      rcases hp with hp | hp
      · have := hlt p hp
        simp [← hm]
        omega
      · simp [hp, ← hm]
    · rw [← hm]
      simp
      exact dictGet_append_self _ hfresh

/-- Under the invariants a direct `deallocate` always raises: a live
object is still referenced and a dead address is an invalid free, so the
only route to deallocation is `dec_ref` reaching zero. -/
theorem deallocate_always_errors {m : MemoryManager} (h : HeapInv m)
    (a : Nat) : ∃ e, m.deallocate a = .error e := by
  obtain ⟨hcnt, _, _⟩ := h
  unfold MemoryManager.deallocate
  cases hget : dictGet m.heap a with
  | none => exact ⟨_, rfl⟩
  | some obj =>
    obtain ⟨k2, hmem⟩ := mem_of_dictGet_eq_some hget
    have hc := hcnt (k2, obj) hmem
    simp at hc
    have : obj.is_unreferenced = false := by
      simp [MemoryObject.is_unreferenced]
      omega
    simp [this]

/-- A successful `inc_ref` preserves the heap invariants. -/
theorem heapInv_inc_ref {m : MemoryManager} (h : HeapInv m) {a : Nat}
    {m' : MemoryManager} (hop : m.inc_ref a = .ok m') : HeapInv m' := by
  obtain ⟨hcnt, hnd, hlt⟩ := h
  unfold MemoryManager.inc_ref at hop
  cases hget : dictGet m.heap a with
  | none => simp [hget] at hop
  | some obj =>
    simp [hget] at hop
    refine ⟨?_, ?_, ?_⟩
    · intro p hp
      rw [← hop] at hp
      simp at hp
      rcases mem_dictSet p hp with h2 | h2
      · exact hcnt p h2
      · rw [h2.1]
        obtain ⟨k2, hmem⟩ := mem_of_dictGet_eq_some hget
        have h3 := hcnt (k2, obj) hmem
        simp at h3
        simp [MemoryObject.inc_ref]
        omega
    · rw [← hop]
      simpa [dictSet_map_fst] using hnd
    · intro p hp
      rw [← hop] at hp
      simp at hp
      rcases mem_dictSet p hp with h2 | h2
      · simpa [← hop] using hlt p h2
      · obtain ⟨q, hq, hq1⟩ := List.mem_map.mp h2.2
        have := hlt q hq
        simp [← hop]
        omega

/-- `dec_ref` on a live address under the invariants: the decrement never
produces the negative-count error, the object is deallocated exactly when
its count was 1 (afterwards the address is gone), and otherwise only the
count drops; the invariants are preserved either way. -/
theorem dec_ref_live {m : MemoryManager} (h : HeapInv m) {a : Nat}
    {obj : MemoryObject} (hget : dictGet m.heap a = some obj) :
    (obj.ref_count = 1 → ∃ m', m.dec_ref a = .ok m'
        ∧ dictGet m'.heap a = none ∧ HeapInv m')
    ∧ (1 < obj.ref_count → ∃ m', m.dec_ref a = .ok m'
        ∧ dictGet m'.heap a =
            some { value := obj.value, ref_count := obj.ref_count - 1 }
        ∧ HeapInv m') := by
  obtain ⟨hcnt, hnd, hlt⟩ := h
  constructor
  · intro h1
    refine ⟨?_, ?_, ?_, ?_⟩
    · exact { m with
        heap := dictRemove m.heap a,
        used_heap_size := m.used_heap_size - obj.value.size_in_bytes }
    · unfold MemoryManager.dec_ref MemoryObject.dec_ref
      simp [hget, h1, MemoryObject.is_unreferenced]
      unfold MemoryManager.deallocate
      rw [dictGet_dictSet_self hget]
      simp [MemoryObject.is_unreferenced, dictRemove_dictSet]
    · exact dictGet_dictRemove_self hnd a
    · refine ⟨?_, ?_, ?_⟩
      · intro p hp
        exact hcnt p ((dictRemove_sublist m.heap a).mem hp)
      · exact ((dictRemove_sublist m.heap a).map Prod.fst).nodup hnd
      · intro p hp
        exact hlt p ((dictRemove_sublist m.heap a).mem hp)
  · intro h1
    refine ⟨?_, ?_, ?_, ?_⟩
    · exact { m with
        heap := dictSet m.heap a
          { value := obj.value, ref_count := obj.ref_count - 1 } }
    · unfold MemoryManager.dec_ref MemoryObject.dec_ref
      have hpos : ¬ (obj.ref_count - 1 < 0) := by omega
      have hz : ({ value := obj.value, ref_count := obj.ref_count - 1 } :
          MemoryObject).is_unreferenced = false := by
        simp [MemoryObject.is_unreferenced]
        omega
      simp [hget, hpos, hz]
    · exact dictGet_dictSet_self hget _
    · refine ⟨?_, ?_, ?_⟩
      · intro p hp
        simp at hp
        rcases mem_dictSet p hp with h2 | h2
        · exact hcnt p h2
        · rw [h2.1]
          simp
          omega
      · simpa [dictSet_map_fst] using hnd
      · intro p hp
        simp at hp
        rcases mem_dictSet p hp with h2 | h2
        · exact hlt p h2
        · obtain ⟨q, hq, hq1⟩ := List.mem_map.mp h2.2
          have := hlt q hq
          simp
          omega

/-- Any successful `dec_ref` preserves the heap invariants. -/
theorem heapInv_dec_ref {m : MemoryManager} (h : HeapInv m) {a : Nat}
    {m' : MemoryManager} (hop : m.dec_ref a = .ok m') : HeapInv m' := by
  cases hget : dictGet m.heap a with
  | none =>
    unfold MemoryManager.dec_ref at hop
    simp [hget] at hop
  | some obj =>
    obtain ⟨k2, hmem⟩ := mem_of_dictGet_eq_some hget
    have hc := h.1 (k2, obj) hmem
    simp at hc
    rcases eq_or_lt_of_le hc with h1 | h1
    · obtain ⟨m2, heq, _, hinv⟩ := (dec_ref_live h hget).1 h1.symm
      rw [hop] at heq
      injection heq with heq2
      rw [heq2]
      exact hinv
    · obtain ⟨m2, heq, _, hinv⟩ := (dec_ref_live h hget).2 h1
      rw [hop] at heq
      injection heq with heq2
      rw [heq2]
      exact hinv

/-- A successful `write` preserves the heap invariants (the reference
count of the overwritten cell is unchanged). -/
theorem heapInv_write {m : MemoryManager} (h : HeapInv m) {a : Nat}
    {v : RuntimeValue} {m' : MemoryManager} (hop : m.write a v = .ok m') :
    HeapInv m' := by
  obtain ⟨hcnt, hnd, hlt⟩ := h
  unfold MemoryManager.write at hop
  cases hget : dictGet m.heap a with
  | none => simp [hget] at hop
  | some obj =>
    simp [hget] at hop
    obtain ⟨k2, hmem⟩ := mem_of_dictGet_eq_some hget
    have hc := hcnt (k2, obj) hmem
    simp at hc
    refine ⟨?_, ?_, ?_⟩
    · intro p hp
      rw [← hop] at hp
      simp at hp
      rcases mem_dictSet p hp with h2 | h2
      · exact hcnt p h2
      · rw [h2.1]
        simpa using hc
    · rw [← hop]
      simpa [dictSet_map_fst] using hnd
    · intro p hp
      rw [← hop] at hp
      simp at hp
      rcases mem_dictSet p hp with h2 | h2
      · simpa [← hop] using hlt p h2
      · obtain ⟨q, hq, hq1⟩ := List.mem_map.mp h2.2
        have := hlt q hq
        simp [← hop]
        omega

/-- Every access to a deallocated (or never-allocated) address raises
`MemoryError`. -/
theorem dead_address_ops_error {m : MemoryManager} {a : Nat}
    (hget : dictGet m.heap a = none) :
    (∃ e, m.read a = .error e) ∧ (∀ v, ∃ e, m.write a v = .error e)
    ∧ (∃ e, m.inc_ref a = .error e) ∧ (∃ e, m.dec_ref a = .error e) := by
  refine ⟨⟨"Invalid memory read at address " ++ toString a, ?_⟩,
    fun v => ⟨"Invalid memory write at address " ++ toString a, ?_⟩,
    ⟨"Invalid inc_ref on address " ++ toString a, ?_⟩,
    ⟨"Invalid dec_ref on address " ++ toString a, ?_⟩⟩ <;>
    simp [MemoryManager.read, MemoryManager.write, MemoryManager.inc_ref,
      MemoryManager.dec_ref, hget]

/-- The release loop of `pop_stack_frame` preserves the heap invariants. -/
theorem heapInv_decRefFrame :
    ∀ (fr : List (String × Nat)) (m m' : MemoryManager), HeapInv m →
      decRefFrame m fr = .ok m' → HeapInv m'
  | [], m, m', h, hop => by
    unfold decRefFrame at hop
    injection hop with h2
    rw [← h2]
    exact h
  | (n, a) :: rest, m, m', h, hop => by
    unfold decRefFrame at hop
    cases hd : m.dec_ref a with
    | error e => rw [hd] at hop; cases hop
    | ok m1 =>
      rw [hd] at hop
      exact heapInv_decRefFrame rest m1 m' (heapInv_dec_ref h hd) hop

/-- A successful `pop_stack_frame` preserves the heap invariants. -/
theorem heapInv_pop {m : MemoryManager} (h : HeapInv m)
    {m' : MemoryManager} (hop : m.pop_stack_frame = .ok m') : HeapInv m' := by
  unfold MemoryManager.pop_stack_frame at hop
  cases hlast : m.stack_frames.getLast? with
  | none => rw [hlast] at hop; cases hop
  | some frame =>
    rw [hlast] at hop
    simp at hop
    cases hd : decRefFrame { m with stack_frames := m.stack_frames.dropLast }
        frame with
    | error e => rw [hd] at hop; cases hop
    | ok m2 =>
      rw [hd] at hop
      simp at hop
      have hinv2 : HeapInv m2 :=
        heapInv_decRefFrame frame
          { m with stack_frames := m.stack_frames.dropLast } m2
          ⟨h.1, h.2.1, h.2.2⟩ hd
      rw [← hop]
      exact ⟨hinv2.1, hinv2.2.1, hinv2.2.2⟩

/-- Popping a frame whose single local holds the last reference
deallocates that local's object. -/
theorem pop_single_local {m : MemoryManager} (h : HeapInv m)
    {name : String} {a : Nat} {obj : MemoryObject}
    (hframe : m.stack_frames.getLast? = some [(name, a)])
    (hget : dictGet m.heap a = some obj) (h1 : obj.ref_count = 1) :
    ∃ m', m.pop_stack_frame = .ok m'
      ∧ dictGet m'.heap a = none ∧ HeapInv m' := by
  have hm1 : HeapInv { m with stack_frames := m.stack_frames.dropLast } :=
    ⟨h.1, h.2.1, h.2.2⟩
  have hget1 : dictGet ({ m with stack_frames := m.stack_frames.dropLast } :
      MemoryManager).heap a = some obj := hget
  obtain ⟨m2, heq2, hnone2, hinv2⟩ := (dec_ref_live hm1 hget1).1 h1
  refine ⟨{ m2 with
    current_frame_vars := m2.stack_frames.getLast?.getD [] }, ?_, hnone2,
    ⟨hinv2.1, hinv2.2.1, hinv2.2.2⟩⟩
  unfold MemoryManager.pop_stack_frame
  rw [hframe]
  simp [decRefFrame, heq2]

/-- C7: every `MemoryManager` operation preserves the heap invariants: a
live object's reference count is never negative (it stays at least 1, and
`dec_ref` never trips its below-zero check); an object is deallocated
exactly once, precisely when `dec_ref` drops its count to zero (a direct
`deallocate` always raises while the invariants hold) — as happens to a
frame's local when `pop_stack_frame` releases the last reference — and
any `read`, `write`, `inc_ref` or `dec_ref` of an address after
deallocation raises `MemoryError`. -/
theorem C7_memory_manager_invariants (m : MemoryManager) (h : HeapInv m) :
    (∀ (v : RuntimeValue) (a : Nat) (m' : MemoryManager),
      m.allocate v = .ok (a, m') →
      HeapInv m' ∧ dictGet m.heap a = none
        ∧ dictGet m'.heap a = some { value := v, ref_count := 1 })
    ∧ (∀ a : Nat, ∃ e, m.deallocate a = .error e)
    ∧ (∀ (a : Nat) (m' : MemoryManager), m.inc_ref a = .ok m' → HeapInv m')
    ∧ (∀ (a : Nat) (obj : MemoryObject), dictGet m.heap a = some obj →
        (obj.ref_count = 1 → ∃ m', m.dec_ref a = .ok m'
            ∧ dictGet m'.heap a = none ∧ HeapInv m')
        ∧ (1 < obj.ref_count → ∃ m', m.dec_ref a = .ok m'
            ∧ dictGet m'.heap a =
                some { value := obj.value, ref_count := obj.ref_count - 1 }
            ∧ HeapInv m'))
    ∧ (∀ (a : Nat) (v : RuntimeValue) (m' : MemoryManager),
        m.write a v = .ok m' → HeapInv m')
    ∧ (∀ a : Nat, dictGet m.heap a = none →
        (∃ e, m.read a = .error e) ∧ (∀ v, ∃ e, m.write a v = .error e)
        ∧ (∃ e, m.inc_ref a = .error e) ∧ (∃ e, m.dec_ref a = .error e))
    ∧ (∀ m' : MemoryManager, m.pop_stack_frame = .ok m' → HeapInv m')
    ∧ (∀ (name : String) (a : Nat) (obj : MemoryObject),
        m.stack_frames.getLast? = some [(name, a)] →
        dictGet m.heap a = some obj → obj.ref_count = 1 →
        ∃ m', m.pop_stack_frame = .ok m'
          ∧ dictGet m'.heap a = none ∧ HeapInv m') := by
  refine ⟨?_, ?_, ?_, ?_, ?_, ?_, ?_, ?_⟩
  · intro v a m' hop
    exact heapInv_allocate h hop
  · intro a
    exact deallocate_always_errors h a
  · intro a m' hop
    exact heapInv_inc_ref h hop
  · intro a obj hget
    exact dec_ref_live h hget
  · intro a v m' hop
    exact heapInv_write h hop
  · intro a hget
    exact dead_address_ops_error hget
  · intro m' hop
    exact heapInv_pop h hop
  · intro name a obj hframe hget h1
    exact pop_single_local h hframe hget h1

/-- C7 witness: the invariants hold of a fresh manager, and on it a direct
`deallocate` raises. -/
theorem C7_memory_manager_witness :
    HeapInv MemoryManager.new
    ∧ (∃ e, (MemoryManager.new).deallocate 1 = .error e) :=
  ⟨by decide, (C7_memory_manager_invariants MemoryManager.new (by decide)).2.1 1⟩

/-! Fuel adequacy for the optimizer embedding.

`constant_folding_pass` and `dead_code_elimination_pass` instantiate the
fuel at `msize` of the node.  The theorems below show this choice is
canonical: folding never increases `msize`, and any fuel of at least
`msize n` produces the same result, so the fuelled definitions denote the
(terminating) unbounded recursion of the source. -/

/-- Every IR node has at least one constructor. -/
theorem msize_pos : ∀ n : IRNode, 1 ≤ msize n := by
  intro n
  cases n <;> try (simp only [msize]; omega)
  case returnNode v ch => cases v <;> simp only [msize] <;> omega

/-- Each member of a list is strictly smaller than the list. -/
theorem msize_lt_msizeList_of_mem {c : IRNode} :
    ∀ {ch : List IRNode}, c ∈ ch → msize c < msize.msizeList ch := by
  intro ch h
  induction ch with
  | nil => cases h
  | cons d rest ih =>
    rcases List.mem_cons.mp h with h2 | h2
    · subst h2
      simp [msize.msizeList]
      omega
    · have := ih h2
      simp [msize.msizeList]
      omega

/-- `_fold_binary_op` never increases the constructor count. -/
theorem msize_fold_binary_op_le (n : IRNode) :
    msize (fold_binary_op n) ≤ msize n := by
  unfold fold_binary_op
  split
  · split
    · simp [IRNode.mkConstant, msize, msize.msizeList]
      omega
    · exact le_refl _
  · exact le_refl _

/-- Mapping a size-non-increasing function over children does not
increase the list size. -/
theorem msizeList_map_le (f : IRNode → IRNode)
    (h : ∀ c : IRNode, msize (f c) ≤ msize c) :
    ∀ ch : List IRNode, msize.msizeList (ch.map f) ≤ msize.msizeList ch := by
  intro ch
  induction ch with
  | nil => simp [msize.msizeList]
  | cons d rest ih =>
    simp only [List.map_cons, msize.msizeList]
    have := h d
    omega

/-- Constant folding never increases the constructor count. -/
theorem msize_cfpFuel_le : ∀ (fuel : Nat) (n : IRNode),
    msize (cfpFuel fuel n) ≤ msize n := by
  intro fuel
  induction fuel with
  | zero => intro n; simp [cfpFuel]
  | succ fuel ih =>
    have hlist := msizeList_map_le (cfpFuel fuel) ih
    intro n
    cases n with
    | functionNode name params rt ch =>
      simp only [cfpFuel, msize]
      have h1 := hlist (ch.map (cfpFuel fuel))
      have h2 := hlist ch
      omega
    | variableNode name t ch =>
      simp only [cfpFuel, msize]
      have := hlist ch
      omega
    | assignmentNode t v ch =>
      simp only [cfpFuel]
      cases ch with
      | nil => simp [msize, msize.msizeList]
      | cons c0 rest =>
        cases rest with
        | nil =>
          simp only [List.map_cons, List.map_nil, msize, msize.msizeList]
          have := ih c0
          omega
        | cons c1 rest2 =>
          cases rest2 with
          | nil =>
            simp only [List.map_cons, List.map_nil, msize, msize.msizeList]
            have h0 := ih c0
            have h1 := ih c1
            have h2 := ih (cfpFuel fuel c1)
            omega
          | cons c2 rest3 =>
            simp only [List.map_cons, msize, msize.msizeList]
            have h0 := ih c0
            have h1 := ih c1
            have h2 := ih c2
            have h3 := hlist rest3
            omega
    | ifNode c tb eb ch =>
      simp only [cfpFuel, msize]
      have := hlist ch
      omega
    | whileNode c b ch =>
      simp only [cfpFuel, msize]
      have := hlist ch
      omega
    | expressionNode et v ch =>
      have hb := msize_fold_binary_op_le (.expressionNode et v (ch.map (cfpFuel fuel)))
      simp only [cfpFuel]
      refine le_trans hb ?_
      simp only [msize]
      have := hlist ch
      omega
    | callNode f args ch =>
      simp only [cfpFuel, msize]
      have := hlist ch
      omega
    | returnNode v ch =>
      cases v <;> simp only [cfpFuel, msize] <;> (have hx := hlist ch; omega)
    | constantNode v t ch =>
      simp only [cfpFuel, msize]
      have := hlist ch
      omega
    | binaryOpNode op l r ch =>
      have hb := msize_fold_binary_op_le (.binaryOpNode op l r (ch.map (cfpFuel fuel)))
      simp only [cfpFuel]
      refine le_trans hb ?_
      simp only [msize]
      have := hlist ch
      omega
    | unaryOpNode op o ch =>
      have hb := msize_fold_binary_op_le (.unaryOpNode op o (ch.map (cfpFuel fuel)))
      simp only [cfpFuel]
      refine le_trans hb ?_
      simp only [msize]
      have := hlist ch
      omega
    | blockNode stmts ch =>
      simp only [cfpFuel, msize]
      have h1 := hlist (ch.map (cfpFuel fuel))
      have h2 := hlist ch
      omega

end HelixLang

namespace HelixLang

/-- Any two adequate fuels compute the same constant-folding result. -/
theorem cfpFuel_congr_aux : ∀ (k : Nat) (n : IRNode), msize n ≤ k →
    ∀ (f g : Nat), msize n ≤ f → msize n ≤ g → cfpFuel f n = cfpFuel g n := by
  intro k
  induction k with
  | zero =>
    intro n hk
    have := msize_pos n
    omega
  | succ k ih =>
    intro n hk f g hf hg
    have hpos := msize_pos n
    cases f with
    | zero => omega
    | succ f' =>
      cases g with
      | zero => omega
      | succ g' =>
        cases n with
        | functionNode name params rt ch =>
          simp only [msize] at hk hf hg
          have hmap : ch.map (cfpFuel f') = ch.map (cfpFuel g') :=
            List.map_congr_left (fun c hc => by
              have hc2 := msize_lt_msizeList_of_mem hc
              exact ih c (by omega) f' g' (by omega) (by omega))
          simp only [cfpFuel]
          rw [hmap]
          congr 1
          refine List.map_congr_left (fun c hc => ?_)
          obtain ⟨d, hd, rfl⟩ := List.mem_map.mp hc
          have hle := msize_cfpFuel_le g' d
          have hd2 := msize_lt_msizeList_of_mem hd
          exact ih _ (by omega) f' g' (by omega) (by omega)
        | variableNode name t ch =>
          simp only [msize] at hk hf hg
          simp only [cfpFuel]
          congr 1
          exact List.map_congr_left (fun c hc => by
            have hc2 := msize_lt_msizeList_of_mem hc
            exact ih c (by omega) f' g' (by omega) (by omega))
        | assignmentNode t v ch =>
          simp only [msize] at hk hf hg
          have hmap : ch.map (cfpFuel f') = ch.map (cfpFuel g') :=
            List.map_congr_left (fun c hc => by
              have hc2 := msize_lt_msizeList_of_mem hc
              exact ih c (by omega) f' g' (by omega) (by omega))
          simp only [cfpFuel]
          rw [hmap]
          cases ch with
          | nil => rfl
          | cons c0 rest =>
            cases rest with
            | nil => rfl
            | cons c1 rest2 =>
              cases rest2 with
              | cons c2 rest3 => rfl
              | nil =>
                simp only [List.map_cons, List.map_nil, msize.msizeList]
                  at hk hf hg ⊢
                have hle := msize_cfpFuel_le g' c1
                rw [ih (cfpFuel g' c1) (by omega) f' g' (by omega) (by omega)]
        | ifNode c tb eb ch =>
          simp only [msize] at hk hf hg
          simp only [cfpFuel]
          congr 1
          exact List.map_congr_left (fun d hd => by
            have hd2 := msize_lt_msizeList_of_mem hd
            exact ih d (by omega) f' g' (by omega) (by omega))
        | whileNode c b ch =>
          simp only [msize] at hk hf hg
          simp only [cfpFuel]
          congr 1
          exact List.map_congr_left (fun d hd => by
            have hd2 := msize_lt_msizeList_of_mem hd
            exact ih d (by omega) f' g' (by omega) (by omega))
        | expressionNode et v ch =>
          simp only [msize] at hk hf hg
          simp only [cfpFuel]
          congr 2
          exact List.map_congr_left (fun d hd => by
            have hd2 := msize_lt_msizeList_of_mem hd
            exact ih d (by omega) f' g' (by omega) (by omega))
        | callNode fn args ch =>
          simp only [msize] at hk hf hg
          simp only [cfpFuel]
          congr 1
          exact List.map_congr_left (fun d hd => by
            have hd2 := msize_lt_msizeList_of_mem hd
            exact ih d (by omega) f' g' (by omega) (by omega))
        | returnNode v ch =>
          cases v <;> simp only [msize] at hk hf hg <;> simp only [cfpFuel] <;>
            (congr 1
             exact List.map_congr_left (fun d hd => by
               have hd2 := msize_lt_msizeList_of_mem hd
               exact ih d (by omega) f' g' (by omega) (by omega)))
        | constantNode v t ch =>
          simp only [msize] at hk hf hg
          simp only [cfpFuel]
          congr 1
          exact List.map_congr_left (fun d hd => by
            have hd2 := msize_lt_msizeList_of_mem hd
            exact ih d (by omega) f' g' (by omega) (by omega))
        | binaryOpNode op l r ch =>
          simp only [msize] at hk hf hg
          simp only [cfpFuel]
          congr 2
          exact List.map_congr_left (fun d hd => by
            have hd2 := msize_lt_msizeList_of_mem hd
            exact ih d (by omega) f' g' (by omega) (by omega))
        | unaryOpNode op o ch =>
          simp only [msize] at hk hf hg
          simp only [cfpFuel]
          congr 2
          exact List.map_congr_left (fun d hd => by
            have hd2 := msize_lt_msizeList_of_mem hd
            exact ih d (by omega) f' g' (by omega) (by omega))
        | blockNode stmts ch =>
          simp only [msize] at hk hf hg
          have hmap : ch.map (cfpFuel f') = ch.map (cfpFuel g') :=
            List.map_congr_left (fun c hc => by
              have hc2 := msize_lt_msizeList_of_mem hc
              exact ih c (by omega) f' g' (by omega) (by omega))
          simp only [cfpFuel]
          rw [hmap]
          congr 1
          refine List.map_congr_left (fun c hc => ?_)
          obtain ⟨d, hd, rfl⟩ := List.mem_map.mp hc
          have hle := msize_cfpFuel_le g' d
          have hd2 := msize_lt_msizeList_of_mem hd
          exact ih _ (by omega) f' g' (by omega) (by omega)

/-- Fuel irrelevance: any fuel at least `msize n` computes the same
result, so `constant_folding_pass` is independent of the particular
adequate bound chosen. -/
theorem cfpFuel_stable (n : IRNode) (f : Nat) (hf : msize n ≤ f) :
    cfpFuel f n = constant_folding_pass n :=
  cfpFuel_congr_aux f n hf f (msize n) hf (le_refl _)

/-- Any two adequate fuels compute the same dead-code-elimination
result, for nodes and for statement lists. -/
theorem dceFuel_congr_aux : ∀ (k : Nat),
    (∀ n : IRNode, msize n ≤ k → ∀ f g, msize n ≤ f → msize n ≤ g →
      dceFuel f n = dceFuel g n)
    ∧ (∀ ch : List IRNode, msize.msizeList ch ≤ k →
      ∀ f g, msize.msizeList ch ≤ f → msize.msizeList ch ≤ g →
      dceFuel.elimFuel f ch = dceFuel.elimFuel g ch) := by
  intro k
  induction k with
  | zero =>
    constructor
    · intro n hk
      have := msize_pos n
      omega
    · intro ch hk f g hf hg
      cases ch with
      | nil => cases f <;> cases g <;> rfl
      | cons stmt rest =>
        have := msize_pos stmt
        simp only [msize.msizeList] at hk
        omega
  | succ k ih =>
    constructor
    · intro n hk f g hf hg
      have hpos := msize_pos n
      cases f with
      | zero => omega
      | succ f' =>
        cases g with
        | zero => omega
        | succ g' =>
          cases n with
          | functionNode name params rt ch =>
            simp only [msize] at hk hf hg
            simp only [dceFuel]
            congr 1
            exact ih.2 ch (by omega) f' g' (by omega) (by omega)
          | blockNode stmts ch =>
            simp only [msize] at hk hf hg
            simp only [dceFuel]
            congr 1
            exact ih.2 ch (by omega) f' g' (by omega) (by omega)
          | variableNode name t ch => rfl
          | assignmentNode t v ch => rfl
          | ifNode c tb eb ch => rfl
          | whileNode c b ch => rfl
          | expressionNode et v ch => rfl
          | callNode fn args ch => rfl
          | returnNode v ch => rfl
          | constantNode v t ch => rfl
          | binaryOpNode op l r ch => rfl
          | unaryOpNode op o ch => rfl
    · intro ch hk f g hf hg
      cases ch with
      | nil => cases f <;> cases g <;> rfl
      | cons stmt rest =>
        have h1 := msize_pos stmt
        simp only [msize.msizeList] at hk hf hg
        cases f with
        | zero => omega
        | succ f' =>
          cases g with
          | zero => omega
          | succ g' =>
            simp only [dceFuel.elimFuel]
            rw [ih.1 stmt (by omega) f' g' (by omega) (by omega),
              ih.2 rest (by omega) f' g' (by omega) (by omega)]

/-- Fuel irrelevance for dead-code elimination. -/
theorem dceFuel_stable (n : IRNode) (f : Nat) (hf : msize n ≤ f) :
    dceFuel f n = dead_code_elimination_pass n :=
  ((dceFuel_congr_aux f).1 n hf f (msize n) hf (le_refl _))

end HelixLang
